import Mathlib

/-!
# teeproxy: the request handler of `http/handler.go`

A shallow embedding of `Handler.ServeHTTP`, `forwardToAlternate` and
`DuplicateRequest`.

* Go pointers are indices into the object lists of a `World` (request structs,
  `bytes.Buffer`s, connection body streams, header maps), so that aliasing is
  visible: `productionRequest = req` is the same index, the two requests built
  by `DuplicateRequest` are two fresh indices sharing one header map.
* Every call that leaves the function (statsd, logger, dialing, the client
  connection, the response writer) is a `Step`; running a step changes the
  `World` and appends the step, tagged with the goroutine that ran it, to the
  world's trace.
* What a backend does during one forward (dial error, write error, read error,
  the response) and where a runtime panic is raised are inputs (`Backend`); the
  panic of `WriteHeader` on a status code outside 100..999 is raised by the call
  itself (`Step.panics`).
* `go forwardToAlternate(...)` runs interleaved with the rest of `ServeHTTP`;
  the interleaving of the two step sequences is chosen by a schedule.
* `float64` arithmetic is taken exactly, over `ℚ`.
-/

namespace Teeproxy

/-! ## Data model -/

abbrev Byte := UInt8

/-- Contents of a body arriving over a connection: what successive `Read`
calls deliver, and how the stream ends (`none` is `io.EOF`, `some e` a read
error). -/
structure Stream where
  chunks : List (List Byte)
  err : Option String
deriving DecidableEq, Repr

/-- A `bytes.Buffer`: the bytes written so far and the read offset. -/
structure Buffer where
  buf : List Byte
  off : Nat
deriving DecidableEq, Repr

/-- The `Body` field of a request: the inbound connection's body, or a
`nopCloser` around a `*bytes.Buffer`. -/
inductive Body where
  | conn (s : Nat)
  | nopCloser (b : Nat)
deriving DecidableEq, Repr

/-- A Go `http.Header` map, as its entries in iteration order. -/
abbrev Header := List (String × List String)

/-- The fields of `http.Request` that `DuplicateRequest` sets. `Header` is a map
(a reference) and `Body` an interface holding a pointer. -/
structure Request where
  Method : String
  URL : String
  Proto : String
  ProtoMajor : Int
  ProtoMinor : Int
  Header : Nat
  Body : Body
  Host : String
  ContentLength : Int
  Close : Bool
deriving DecidableEq, Repr

/-- A request as `Request.Write` puts it on the wire. -/
structure WireRequest where
  Method : String
  URL : String
  Proto : String
  Host : String
  Header : Header
  Body : List Byte
  ContentLength : Int
  Close : Bool
deriving DecidableEq, Repr

/-- The response a backend sends: status code, header map (entries in the order
`range` visits them) and body stream. -/
structure Response where
  StatusCode : Int
  Header : Header
  Body : Stream
deriving DecidableEq, Repr

/-- Errors of `ClientConn.Read`. -/
inductive ConnErr where
  | ErrPersistEOF
  | other (msg : String)
deriving DecidableEq, Repr

/-- What one backend does during one forward: the error of `net.DialTimeout`,
of `ClientConn.Write`, of `ClientConn.Read` (`none` is `nil`), the response
read, and the step of the forwarding function's body at which a runtime panic
is raised, with its value. -/
structure Backend where
  dial : Option String
  write : Option String
  readErr : Option ConnErr
  resp : Response
  fault : Option (Nat × String)
deriving DecidableEq, Repr

/-- The goroutine running a step: the one serving the request, or the one
started by `go forwardToAlternate`. -/
inductive Task where
  | primary
  | shadow
deriving DecidableEq, Repr

/-- The three statsd clients of the handler. -/
inductive StatsClient where
  | HttpStats
  | HttpStatsPri
  | HttpStatsAlt
deriving DecidableEq, Repr

inductive Level where
  | info
  | warn
  | error
deriving DecidableEq, Repr

/-- The calls that leave the handler. Log calls keep their format string, not
the formatted arguments. -/
inductive Step where
  | Increment (c : StatsClient) (bucket : String)
  | NewTiming (c : StatsClient)
  | Send (c : StatsClient) (bucket : String)
  | Log (l : Level) (format : String)
  | DialTimeout (addr : String) (seconds : Int)
  | SetHost (p : Nat) (host : String)
  | ConnWrite (addr : String) (p : Nat)
  | ConnRead (addr : String)
  | ConnClose (addr : String)
  | BodyClose (addr : String)
  | SetHeader (k : String) (v : List String)
  | WriteHeader (code : Int)
  | Write (b : List Byte)
  | Crash (v : String)
deriving DecidableEq, Repr

/-- The `http.ResponseWriter` handed to `ServeHTTP`: the header map, the status
of the response once it is fixed (by `WriteHeader` with a final code, or by the
first `Write`), the body bytes written. -/
structure ResponseWriter where
  header : Header
  status : Option Int
  body : List Byte
deriving DecidableEq, Repr

/-- The shared `rand.Rand` source: the sequence `Float64` returns and how many
values have been drawn from it. -/
structure Rand where
  seq : Nat → ℚ
  pos : Nat

structure World where
  reqs : List Request
  bufs : List Buffer
  streams : List Stream
  hdrs : List Header
  rng : Rand
  client : ResponseWriter
  trace : List (Task × Step)
  wire : List (Task × String × WireRequest)
  spawned : List Nat

/-! ## Buffers, bodies and header maps -/

/-- The bytes of a buffer not read yet. -/
def Buffer.unread (b : Buffer) : List Byte := b.buf.drop b.off

/-- The method `(*bytes.Buffer).Write`: appends, never fails. -/
def Buffer.Write (b : Buffer) (p : List Byte) : Buffer := { b with buf := b.buf ++ p }

/-- Reading a buffer to its end moves the read offset to the end. -/
def Buffer.drain (b : Buffer) : Buffer := { b with off := b.buf.length }

/-- Assignment `m[k] = v` on a Go map. -/
def Header.set (m : Header) (k : String) (v : List String) : Header :=
  if m.any (fun e => e.1 == k) then m.map (fun e => if e.1 = k then (k, v) else e)
  else m ++ [(k, v)]

/-- Reads a body until `Read` reports the end: the chunks delivered, the error
that ended the stream (`none` for `io.EOF`), and the world with the body
consumed. A nil or dangling pointer delivers nothing. -/
def World.readBody (w : World) : Body → List (List Byte) × Option String × World
  | .conn s =>
    match w.streams[s]? with
    | none => ([], none, w)
    | some st => (st.chunks, st.err, { w with streams := w.streams.set s ⟨[], st.err⟩ })
  | .nopCloser b =>
    match w.bufs[b]? with
    | none => ([], none, w)
    | some bf => ([bf.unread], none, { w with bufs := w.bufs.set b bf.drain })

/-- The call `ioutil.ReadAll(body)`: whatever was delivered before the end, and
the error. -/
def World.ReadAll (w : World) (body : Body) : List Byte × Option String × World :=
  let r := w.readBody body
  (r.1.flatten, r.2.1, r.2.2)

/-- One `Write` on `io.MultiWriter(b1, b2)`: the chunk goes to `b1`, then to
`b2`. -/
def World.MultiWrite (w : World) (b1 b2 : Nat) (p : List Byte) : World :=
  let w1 := { w with bufs := w.bufs.modify (fun b => b.Write p) b1 }
  { w1 with bufs := w1.bufs.modify (fun b => b.Write p) b2 }

/-- The call `io.Copy(io.MultiWriter(b1, b2), src)`: every chunk read from `src`
is written to both buffers; returns the read error, if any. -/
def World.Copy (w : World) (b1 b2 : Nat) (src : Body) : World × Option String :=
  let r := w.readBody src
  (r.1.foldl (fun w p => w.MultiWrite b1 b2 p) r.2.2, r.2.1)

/-! ## DuplicateRequest -/

/-- The function `DuplicateRequest(request)`, lines 157-188. Returns the
pointers `request1`, `request2` and the new world; `none` if `request` is a nil
pointer. The error returned by `io.Copy` is dropped, as in the source. The
deferred `request.Body.Close()` changes nothing that the world records. -/
def DuplicateRequest (w : World) (request : Nat) : Option (Nat × Nat × World) :=
  match w.reqs[request]? with
  | none => none
  | some r =>
    let b2 := w.bufs.length
    let b1 := w.bufs.length + 1
    let w1 := { w with bufs := w.bufs ++ [Buffer.mk [] 0, Buffer.mk [] 0] }
    let w2 := (w1.Copy b1 b2 r.Body).1
    let request1 : Request :=
      { Method := r.Method, URL := r.URL, Proto := r.Proto, ProtoMajor := r.ProtoMajor,
        ProtoMinor := r.ProtoMinor, Header := r.Header, Body := .nopCloser b1,
        Host := r.Host, ContentLength := r.ContentLength, Close := true }
    let request2 : Request :=
      { Method := r.Method, URL := r.URL, Proto := r.Proto, ProtoMajor := r.ProtoMajor,
        ProtoMinor := r.ProtoMinor, Header := r.Header, Body := .nopCloser b2,
        Host := r.Host, ContentLength := r.ContentLength, Close := true }
    some (w2.reqs.length, w2.reqs.length + 1, { w2 with reqs := w2.reqs ++ [request1, request2] })

/-- The body points at an object of the world (it is not nil or dangling). -/
def World.live (w : World) : Body → Prop
  | .conn s => s < w.streams.length
  | .nopCloser b => b < w.bufs.length

instance (w : World) (b : Body) : Decidable (w.live b) := by
  cases b <;> simp only [World.live] <;> infer_instance

/-- The body bytes a request yields when read to completion in world `w`, the
read error, and the world after the read; `none` for a nil pointer. -/
def World.readRequestBody (w : World) (p : Nat) : Option (List Byte × Option String × World) :=
  (w.reqs[p]?).map (fun r => w.ReadAll r.Body)

/-! ## Steps -/

/-- The wire image of request `r` whose body read back as `body`. -/
def World.wireRequest (w : World) (r : Request) (body : List Byte) : WireRequest :=
  { Method := r.Method, URL := r.URL, Proto := r.Proto, Host := r.Host,
    Header := (w.hdrs[r.Header]?).getD [], Body := body,
    ContentLength := r.ContentLength, Close := r.Close }

/-- The check `checkWriteHeaderCode` of net/http: `WriteHeader` panics on a
status code below 100 or above 999. -/
def invalidWriteHeaderCode (code : Int) : Bool := decide (code < 100 ∨ 999 < code)

/-- The status codes that `WriteHeader` of net/http sends as an informational
response without fixing the status of the response: 1xx other than 101. -/
def informationalCode (code : Int) : Bool :=
  decide (100 ≤ code ∧ code ≤ 199 ∧ code ≠ 101)

/-- The method `WriteHeader` of the server's response writer. A call after the
status is fixed is superfluous and ignored; a code that `checkWriteHeaderCode`
refuses fixes nothing (the call panics, see `Step.panics`); an informational
code is sent at once and leaves the status open; any other code becomes the
status of the response. -/
def ResponseWriter.WriteHeader (c : ResponseWriter) (code : Int) : ResponseWriter :=
  if c.status.isSome then c
  else if invalidWriteHeaderCode code then c
  else if informationalCode code then c
  else { c with status := some code }

/-- The panic a call raises by itself, if any: `WriteHeader` with a code that
`checkWriteHeaderCode` refuses. On every path of the handler `WriteHeader` is
called while the status is still open, so the check is reached. -/
def Step.panics : Step → Option String
  | .WriteHeader code =>
    if invalidWriteHeaderCode code then some "invalid WriteHeader code" else none
  | _ => none

/-- What a step does to the world, run by goroutine `t`.
* `SetHost p host` is the assignment `p.Host = host`.
* `ConnWrite addr p` is `clientHttpConn.Write(p)`: the request's fields are read
  and its body is consumed; the image is appended to `wire`.
* `SetHeader`, `WriteHeader`, `Write` are the calls on the response writer:
  `WriteHeader` as in `ResponseWriter.WriteHeader`; a `Write` while the status
  is open fixes it to 200 first.
* The remaining steps touch nothing but the trace. -/
def effect (t : Task) (s : Step) (w : World) : World :=
  match s with
  | .SetHost p host =>
    match w.reqs[p]? with
    | none => w
    | some r => { w with reqs := w.reqs.set p { r with Host := host } }
  | .ConnWrite addr p =>
    match w.reqs[p]? with
    | none => w
    | some r =>
      let b := w.ReadAll r.Body
      { b.2.2 with wire := b.2.2.wire ++ [(t, addr, w.wireRequest r b.1)] }
  | .SetHeader k v => { w with client := { w.client with header := w.client.header.set k v } }
  | .WriteHeader code => { w with client := w.client.WriteHeader code }
  | .Write b =>
    { w with client := { w.client with status := some (w.client.status.getD 200),
                                       body := w.client.body ++ b } }
  | _ => w

/-- Runs one step and records it in the trace. -/
def exec (ts : Task × Step) (w : World) : World :=
  let w1 := effect ts.1 ts.2 w
  { w1 with trace := w1.trace ++ [ts] }

/-- Runs a sequence of tagged steps. -/
def run (l : List (Task × Step)) (w : World) : World := l.foldl (fun w ts => exec ts w) w

/-! ## Function bodies with `defer` and `recover` -/

/-- A deferred call: given the panic in flight (`none` on a normal return), the
steps it performs and the panic still in flight after it. A call to `recover()`
returns the panic value and stops the panic. -/
abbrev Deferred := Option String → List Step × Option String

/-- The statements of a function body along one control path. -/
inductive Instr where
  | step (s : Step)
  | defer (d : Deferred)

/-- Runs the deferred calls, last registered first. -/
def unwind : List Deferred → Option String → List Step × Option String
  | [], p => ([], p)
  | d :: ds, p =>
    let r := d p
    let rest := unwind ds r.2
    (r.1 ++ rest.1, rest.2)

/-- Runs a body: steps in order; if the `n`-th step from here panics
(`fault = some (n, v)`), or a step panics by itself (`Step.panics`), the body
stops there; the deferred calls registered so far (`ds`, last first) then run.
Returns the steps performed and the panic that leaves the function, if any. -/
def runBody : List Instr → Option (Nat × String) → List Deferred → List Step × Option String
  | [], _, ds => unwind ds none
  | .defer d :: is, fault, ds => runBody is fault (d :: ds)
  | .step s :: is, fault, ds =>
    match fault with
    | some (0, v) => unwind ds (some v)
    | some (n + 1, v) =>
      match s.panics with
      | some pv => unwind ds (some pv)
      | none =>
        let r := runBody is (some (n, v)) ds
        (s :: r.1, r.2)
    | none =>
      match s.panics with
      | some pv => unwind ds (some pv)
      | none =>
        let r := runBody is none ds
        (s :: r.1, r.2)

/-- The steps a goroutine performs for a body; a panic that leaves the
goroutine's function ends the process (`Crash`). -/
def steps (body : List Instr) (fault : Option (Nat × String)) : List Step :=
  let r := runBody body fault []
  match r.2 with
  | none => r.1
  | some v => r.1 ++ [.Crash v]

/-- Number of steps in a body. -/
def stepCount : List Instr → Nat
  | [] => 0
  | .defer _ :: is => stepCount is
  | .step _ :: is => stepCount is + 1

/-! ## The handler -/

/-- The configuration fields of `Handler`. The random source, the logger and
the statsd clients are part of the `World`. -/
structure Handler where
  Target : String
  Alternative : String
  Debug : Bool
  AlternateTimeout : Int
  AlternateHostRewrite : Bool
  Percent : ℚ
  ProductionTimeout : Int
  ProductionHostRewrite : Bool

def StatusServiceUnavailable : Int := 503

/-- The function `strconv.Itoa`. -/
def Itoa (n : Int) : String := toString n

/-- A response body read by `ioutil.ReadAll`: the bytes delivered and the error. -/
def Stream.ReadAll (s : Stream) : List Byte × Option String := (s.chunks.flatten, s.err)

/-- The method `(*rand.Rand).Float64`: the next value, and the source advanced by one. -/
def Rand.Float64 (r : Rand) : ℚ × Rand := (r.seq r.pos, { r with pos := r.pos + 1 })

/-- The deferred function of `forwardToAlternate`, lines 40-44: `recover()` is
called first, whatever `h.Debug` is; the warning is logged if it returned a
panic value and `h.Debug` is set. -/
def recoverAlternate (h : Handler) : Deferred := fun r =>
  (if r.isSome && h.Debug then [.Log .warn "Recovered in forwardToAlternate"] else [], none)

/-- The deferred function of `ServeHTTP`, lines 104-108. -/
def recoverServeHTTP (h : Handler) : Deferred := fun r =>
  (if r.isSome && h.Debug then [.Log .info "Recovered in ServeHTTP"] else [], none)

/-- The body of `forwardToAlternate(h, alternativeRequest)`, lines 39-85, along
the path the backend `env` selects. -/
def forwardToAlternate (h : Handler) (alternativeRequest : Nat) (env : Backend) : List Instr :=
  [ .defer (recoverAlternate h),
    .step (.Log .info "Forwarding request to alternate. Host: %s, URL: %s"),
    .step (.NewTiming .HttpStatsAlt),
    .step (.DialTimeout h.Alternative h.AlternateTimeout) ] ++
  match env.dial with
  | some _ =>
    (if h.Debug then
      [.step (.Log .warn "Failed to connect to alternate backend. Host: %s, URL: %s, Error: %v")]
     else []) ++
    [ .step (.Increment .HttpStatsAlt (Itoa StatusServiceUnavailable)) ]
  | none =>
    [ .defer (fun r => ([.ConnClose h.Alternative], r)) ] ++
    (if h.AlternateHostRewrite then [.step (.SetHost alternativeRequest h.Alternative)] else []) ++
    [ .step (.ConnWrite h.Alternative alternativeRequest) ] ++
    match env.write with
    | some _ =>
      if h.Debug then
        [.step (.Log .warn "Failed to send to alternate backend. Host: %s, URL: %s, Error: %v")]
      else []
    | none =>
      [ .step (.ConnRead h.Alternative) ] ++
      if env.readErr ≠ none ∧ env.readErr ≠ some .ErrPersistEOF then
        if h.Debug then
          [.step (.Log .warn "Failed to receive from alternate backend. Host: %s, URL: %s, Error: %v")]
        else []
      else
        [ .defer (fun r => ([.BodyClose h.Alternative], r)),
          .step (.Log .info "Response from alternate. Host: %s, Status: %d, URL: %s"),
          .step (.Send .HttpStatsAlt "latency"),
          .step (.Increment .HttpStatsAlt (Itoa env.resp.StatusCode)) ]

/-- Lines 104-155 of `ServeHTTP`: the forward of `productionRequest` to the
primary backend, along the path the backend `env` selects. -/
def forwardToPrimary (h : Handler) (productionRequest : Nat) (env : Backend) : List Instr :=
  [ .defer (recoverServeHTTP h),
    .step (.Log .info "Forwarding request to primary. Host: %s, URL: %s"),
    .step (.NewTiming .HttpStatsPri),
    .step (.DialTimeout h.Target h.ProductionTimeout) ] ++
  match env.dial with
  | some _ =>
    [ .step (.Log .warn "Failed to connect to primary backend. Host: %s, URL: %s, Error: %v"),
      .step (.WriteHeader StatusServiceUnavailable),
      .step (.Increment .HttpStatsPri (Itoa StatusServiceUnavailable)) ]
  | none =>
    [ .defer (fun r => ([.ConnClose h.Target], r)) ] ++
    (if h.ProductionHostRewrite then [.step (.SetHost productionRequest h.Target)] else []) ++
    [ .step (.ConnWrite h.Target productionRequest) ] ++
    match env.write with
    | some _ =>
      [ .step (.Log .error "Failed to send to primary backend. Host: %s:, URL: %s, Error: %v") ]
    | none =>
      [ .step (.ConnRead h.Target) ] ++
      if env.readErr ≠ none ∧ env.readErr ≠ some .ErrPersistEOF then
        [ .step (.Log .error "Failed to receive from primary backend. Host: %s:, URL: %s, Error: %v") ]
      else
        [ .defer (fun r => ([.BodyClose h.Target], r)) ] ++
        env.resp.Header.map (fun kv => .step (.SetHeader kv.1 kv.2)) ++
        [ .step (.WriteHeader env.resp.StatusCode),
          .step (.Write env.resp.Body.ReadAll.1),
          .step (.Log .info "Response from primary. Host: %s, Status: %d, URL: %s"),
          .step (.Send .HttpStatsPri "latency"),
          .step (.Increment .HttpStatsPri (Itoa env.resp.StatusCode)) ]

/-- Interleaves the steps of the serving goroutine (`ps`) and of the goroutine
started by `go` (`ss`): `true` lets the serving goroutine take its next step,
`false` the other one; when the schedule ends the remaining steps run. -/
def interleave : List Bool → List Step → List Step → List (Task × Step)
  | [], ps, ss => ps.map (Prod.mk Task.primary) ++ ss.map (Prod.mk Task.shadow)
  | true :: bs, p :: ps, ss => (Task.primary, p) :: interleave bs ps ss
  | true :: bs, [], ss => interleave bs [] ss
  | false :: bs, ps, s :: ss => (Task.shadow, s) :: interleave bs ps ss
  | false :: bs, ps, [] => interleave bs ps []

/-- The method `Handler.ServeHTTP(w, req)`, lines 89-155, with the goroutine
it starts. `pri` and `alt` are what the two backends do, `sched` the
interleaving of the two goroutines. The draw of lines 93-95 is taken under the
mutex, before the test of line 97. `DuplicateRequest` returns `request1` to
`alternativeRequest` and `request2` to `productionRequest`. -/
def ServeHTTP (h : Handler) (req : Nat) (pri alt : Backend) (sched : List Bool)
    (w : World) : World :=
  let w1 := exec (.primary, .Increment .HttpStats "req") w
  let d := w1.rng.Float64
  let rnd := d.1
  let w2 := { w1 with rng := d.2 }
  if h.Percent = 100 ∨ rnd * 100 < h.Percent then
    match DuplicateRequest w2 req with
    | none => exec (.primary, .Crash "nil pointer dereference") w2
    | some (alternativeRequest, productionRequest, w3) =>
      let w4 := { w3 with spawned := w3.spawned ++ [alternativeRequest] }
      run (interleave sched (steps (forwardToPrimary h productionRequest pri) pri.fault)
            (steps (forwardToAlternate h alternativeRequest alt) alt.fault)) w4
  else
    run ((steps (forwardToPrimary h req pri) pri.fault).map (Prod.mk Task.primary)) w2

/-! ## The initial world -/

/-- An inbound request as the server hands it to the handler. -/
structure Inbound where
  Method : String
  URL : String
  Proto : String
  ProtoMajor : Int
  ProtoMinor : Int
  Header : Header
  Body : Stream
  Host : String
  ContentLength : Int
  Close : Bool

/-- The request struct the server builds for an inbound request: its header map
at pointer 0 and its body the stream 0 of the connection. -/
def Inbound.request (i : Inbound) : Request :=
  { Method := i.Method, URL := i.URL, Proto := i.Proto, ProtoMajor := i.ProtoMajor,
    ProtoMinor := i.ProtoMinor, Header := 0, Body := .conn 0, Host := i.Host,
    ContentLength := i.ContentLength, Close := i.Close }

/-- The world at the call of `ServeHTTP`: the inbound request at pointer 0 with
its header map and body stream, a fresh response writer, nothing recorded. -/
def World.init (i : Inbound) (rng : Rand) : World :=
  { reqs := [i.request], bufs := [], streams := [i.Body], hdrs := [i.Header], rng := rng,
    client := { header := [], status := none, body := [] },
    trace := [], wire := [], spawned := [] }

/-- The world of `World.init` after line 91 and lines 93-95 of `ServeHTTP`: the
inbound counter incremented, one value drawn. -/
def World.sampled (i : Inbound) (rng : Rand) : World :=
  { reqs := [i.request], bufs := [], streams := [i.Body], hdrs := [i.Header],
    rng := rng.Float64.2, client := { header := [], status := none, body := [] },
    trace := [(Task.primary, .Increment .HttpStats "req")], wire := [], spawned := [] }

/-- The world of `World.init` at the `go` statement of line 99: the inbound body
consumed, `request1` at pointer 1 wrapping buffer 1, `request2` at pointer 2
wrapping buffer 0, one goroutine started on pointer 1. -/
def World.dispatched (i : Inbound) (rng : Rand) : World :=
  { reqs := [i.request,
             { i.request with Body := .nopCloser 1, Close := true },
             { i.request with Body := .nopCloser 0, Close := true }],
    bufs := [⟨i.Body.chunks.flatten, 0⟩, ⟨i.Body.chunks.flatten, 0⟩],
    streams := [⟨[], i.Body.err⟩], hdrs := [i.Header],
    rng := rng.Float64.2, client := { header := [], status := none, body := [] },
    trace := [(Task.primary, .Increment .HttpStats "req")], wire := [], spawned := [1] }

/-! ## Observations -/

/-- Calls on the response writer. -/
def Step.isWriterCall : Step → Bool
  | .SetHeader _ _ => true
  | .WriteHeader _ => true
  | .Write _ => true
  | _ => false

/-- Metrics sent on statsd client `c`: counter increments and timings. -/
def Step.isStat (c : StatsClient) : Step → Bool
  | .Increment c' _ => c' == c
  | .Send c' _ => c' == c
  | _ => false

/-- A panic that left a goroutine and ended the process. -/
def Step.isCrash : Step → Bool
  | .Crash _ => true
  | _ => false

/-- The calls made on the response writer, in order. -/
def World.writerCalls (w : World) : List Step := (w.trace.map Prod.snd).filter Step.isWriterCall

/-- The metrics sent on statsd client `c` by any goroutine, in order. -/
def World.stats (c : StatsClient) (w : World) : List Step :=
  (w.trace.map Prod.snd).filter (Step.isStat c)

/-- The steps performed by goroutine `t`, in order. -/
def World.calls (t : Task) (w : World) : List Step :=
  (w.trace.filter (fun e => decide (e.1 = t))).map Prod.snd

/-- The crashes of the process recorded in the trace. -/
def World.crashes (w : World) : List Step := (w.trace.map Prod.snd).filter Step.isCrash

/-- The requests goroutine `t` wrote to a backend: address and wire image. -/
def World.written (t : Task) (w : World) : List (String × WireRequest) :=
  (w.wire.filter (fun e => decide (e.1 = t))).map Prod.snd

/-! ## Predicates and views used in the proofs -/

/-- A deferred call that performs no step satisfying `P` and leaves the panic
in flight as it found it. -/
def Deferred.passes (P : Step → Prop) (d : Deferred) : Prop :=
  ∀ p, (d p).2 = p ∧ ∀ s ∈ (d p).1, ¬ P s

/-- A statement that performs no step satisfying `P`; a `defer` statement
registers a call that passes. -/
def Instr.quiet (P : Step → Prop) : Instr → Prop
  | .step s => ¬ P s
  | .defer d => d.passes P

/-- The steps of a body, without its `defer` statements. -/
def stepsOf : List Instr → List Step
  | [] => []
  | .defer _ :: is => stepsOf is
  | .step s :: is => s :: stepsOf is

/-- The calls deferred by a body, last registered first. -/
def defersOf : List Instr → List Deferred
  | [] => []
  | .defer d :: is => defersOf is ++ [d]
  | .step _ :: is => defersOf is

/-- What a call on the response writer does to it. -/
def ResponseWriter.apply (c : ResponseWriter) : Step → ResponseWriter
  | .SetHeader k v => { c with header := c.header.set k v }
  | .WriteHeader code => c.WriteHeader code
  | .Write b => { c with status := some (c.status.getD 200), body := c.body ++ b }
  | _ => c

/-- Steps on shared objects that the client or the primary metrics can observe:
calls on the response writer, on the statsd clients other than `HttpStatsAlt`,
and a crash of the process. -/
def Step.isPublic : Step → Bool
  | .Increment c _ => c != .HttpStatsAlt
  | .NewTiming c => c != .HttpStatsAlt
  | .Send c _ => c != .HttpStatsAlt
  | .SetHeader _ _ => true
  | .WriteHeader _ => true
  | .Write _ => true
  | .Crash _ => true
  | _ => false

/-- The request struct a step touches, if any, is the one at `p`. -/
def Step.owned (p : Nat) : Step → Prop
  | .SetHost q _ => q = p
  | .ConnWrite _ q => q = p
  | _ => True

/-- The recovery message of `forwardToAlternate`. -/
def Step.isRecovery : Step → Prop
  | .Log .warn "Recovered in forwardToAlternate" => True
  | _ => False

/-- Steps of the alternate path proper: not public, on the request at `a`
only, and not the recovery message. -/
def Step.alternateBody (a : Nat) (s : Step) : Prop :=
  s.isPublic = false ∧ s.owned a ∧ ¬ s.isRecovery

/-- Trace entries of the serving goroutine, and public steps of any goroutine. -/
def visible (e : Task × Step) : Bool := decide (e.1 = Task.primary) || e.2.isPublic

/-- What the serving goroutine and the client can observe: the response writer,
the visible trace, the requests written by the serving goroutine, the request
struct at `p`, the buffer at `b`, the header maps. -/
def World.primaryView (p b : Nat) (w : World) :
    ResponseWriter × List (Task × Step) × List (Task × String × WireRequest) ×
      Option Request × Option Buffer × List Header :=
  (w.client, w.trace.filter visible, w.wire.filter (fun e => decide (e.1 = Task.primary)),
    w.reqs[p]?, w.bufs[b]?, w.hdrs)

/-- What the goroutine started by `go` can observe: its trace entries, the
requests it wrote, the request struct at `p`, the buffer at `b`, the header
maps. -/
def World.shadowView (p b : Nat) (w : World) :
    List (Task × Step) × List (Task × String × WireRequest) ×
      Option Request × Option Buffer × List Header :=
  (w.trace.filter (fun e => decide (e.1 = Task.shadow)),
    w.wire.filter (fun e => decide (e.1 = Task.shadow)), w.reqs[p]?, w.bufs[b]?, w.hdrs)

/-- The request struct at `p` exists and its body wraps the buffer `b`. -/
def World.holds (p b : Nat) (w : World) : Prop :=
  ∃ r, w.reqs[p]? = some r ∧ r.Body = .nopCloser b

/-- What the client and the primary path can observe of a world: the response
writer, the visible trace (every step of the serving goroutine, and the public
steps of any goroutine), and the requests the serving goroutine wrote. -/
def World.observables (w : World) :
    ResponseWriter × List (Task × Step) × List (Task × String × WireRequest) :=
  (w.client, w.trace.filter visible, w.wire.filter (fun e => decide (e.1 = Task.primary)))

/-- The run of `ServeHTTP` on the initial world in which the started goroutine
never takes a step: the serving goroutine alone. -/
def primaryAlone (h : Handler) (i : Inbound) (rng : Rand) (pri : Backend) : World :=
  if h.Percent = 100 ∨ rng.Float64.1 * 100 < h.Percent then
    run ((steps (forwardToPrimary h 2 pri) pri.fault).map (Prod.mk Task.primary))
      (World.dispatched i rng)
  else
    run ((steps (forwardToPrimary h 0 pri) pri.fault).map (Prod.mk Task.primary))
      (World.sampled i rng)

/-- Whether a step may be taken by a forward to backend `addr` on the request at
`p`: `SetHost` only as the rewrite of `p.Host` to `addr`, with the rewrite flag
set; `ConnWrite` only of `p` to `addr`, and only once the host is settled
(`ready`). -/
def Step.hostOk (p : Nat) (addr : String) (rewrite ready : Bool) : Step → Prop
  | .SetHost q host => q = p ∧ host = addr ∧ rewrite = true
  | .ConnWrite a q => q = p ∧ a = addr ∧ ready = true
  | _ => True

/-- The host of the request is settled after a `SetHost`. -/
def Step.settles (ready : Bool) : Step → Bool
  | .SetHost _ _ => true
  | _ => ready

/-- A sequence of steps in which every `ConnWrite` writes the request at `p` to
`addr` after its host is settled. -/
def hostSafe (p : Nat) (addr : String) (rewrite : Bool) : Bool → List Step → Prop
  | _, [] => True
  | ready, s :: L => s.hostOk p addr rewrite ready ∧ hostSafe p addr rewrite (s.settles ready) L

/-- A step that neither sets a host nor writes a request. -/
def Step.neutral : Step → Prop
  | .SetHost _ _ => False
  | .ConnWrite _ _ => False
  | _ => True

/-! ## Example inputs -/

/-- A request with body `he`, `llo` arriving in two reads. -/
def exampleWorld : World :=
  { reqs := [⟨"GET", "/foo", "HTTP/1.1", 1, 1, 0, .conn 0, "example.com", 5, false⟩],
    bufs := [], streams := [⟨[[104, 101], [108, 108, 111]], none⟩], hdrs := [[]],
    rng := ⟨fun _ => 0, 0⟩, client := ⟨[], none, []⟩, trace := [], wire := [], spawned := [] }

/-- A request whose body fails after two bytes. -/
def exampleWorldCut : World :=
  { exampleWorld with streams := [⟨[[104, 101]], some "unexpected EOF"⟩] }

/-- The request of the scenario: `GET /foo` with body `hello`. -/
def exampleInbound : Inbound :=
  { Method := "GET", URL := "/foo", Proto := "HTTP/1.1", ProtoMajor := 1, ProtoMinor := 1,
    Header := [("Accept", ["*/*"])], Body := ⟨[[104, 101], [108, 108, 111]], none⟩,
    Host := "proxy.example", ContentLength := 5, Close := false }

/-- The request of the scenario, addressed to the host name of the primary
backend itself. -/
def exampleInboundDirect : Inbound := { exampleInbound with Host := "localhost:8080" }

/-- A handler mirroring every request, without host rewrite. -/
def exampleHandler : Handler :=
  { Target := "localhost:8080", Alternative := "localhost:8081", Debug := false,
    AlternateTimeout := 1, AlternateHostRewrite := false, Percent := 100,
    ProductionTimeout := 3, ProductionHostRewrite := false }

/-- A handler mirroring half of the requests. -/
def exampleHandlerHalf : Handler := { exampleHandler with Percent := 50 }

/-- A random source returning 0 forever. -/
def exampleRand : Rand := ⟨fun _ => 0, 0⟩

/-- A backend answering 200 with two headers and body `hello-A`. -/
def examplePrimary : Backend :=
  { dial := none, write := none, readErr := none,
    resp := ⟨200, [("Content-Type", ["text/plain"]), ("X-Served-By", ["a"])],
             ⟨[[104, 101, 108, 108, 111], [45, 65]], none⟩⟩,
    fault := none }

/-- A backend answering 201 with an empty body. -/
def exampleAlternate : Backend :=
  { dial := none, write := none, readErr := some .ErrPersistEOF,
    resp := ⟨201, [], ⟨[], none⟩⟩, fault := none }

/-- A backend answering with the status line `HTTP/1.1 099`, one header and
body `hi`. -/
def exampleInvalidStatus : Backend :=
  { dial := none, write := none, readErr := none,
    resp := ⟨99, [("Content-Type", ["text/plain"])], ⟨[[104, 105]], none⟩⟩,
    fault := none }

/-- A backend answering 103 Early Hints with one header; a 1xx response has no
body. -/
def exampleInformational : Backend :=
  { dial := none, write := none, readErr := none,
    resp := ⟨103, [("Link", ["</style.css>; rel=preload"])], ⟨[], none⟩⟩,
    fault := none }

/-- A backend that cannot be dialed. -/
def exampleDown : Backend :=
  { dial := some "connection refused", write := none, readErr := none,
    resp := ⟨0, [], ⟨[], none⟩⟩, fault := none }

/-! ## Lists as object stores -/

theorem modify_append_length {α : Type} (f : α → α) (l : List α) (a : α) (t : List α) :
    (l ++ a :: t).modify f l.length = l ++ f a :: t := by
  induction l with
  | nil => rfl
  | cons x xs ih => simp [ih]

theorem modify_append_length_succ {α : Type} (f : α → α) (l : List α) (a b : α) (t : List α) :
    (l ++ a :: b :: t).modify f (l.length + 1) = l ++ a :: f b :: t := by
  induction l with
  | nil => rfl
  | cons x xs ih => simp [ih]

theorem getElem?_append_length {α : Type} (l : List α) (a : α) (t : List α) :
    (l ++ a :: t)[l.length]? = some a := by
  induction l with
  | nil => simp
  | cons x xs ih => simpa using ih

theorem getElem?_append_length_succ {α : Type} (l : List α) (a b : α) (t : List α) :
    (l ++ a :: b :: t)[l.length + 1]? = some b := by
  induction l with
  | nil => simp
  | cons x xs ih => simpa using ih

/-! ## The fan-out copy -/

/-- Writing the chunks of a body to two buffers at the end of the store appends
the concatenated chunks to both and changes nothing else. -/
theorem foldl_MultiWrite (chunks : List (List Byte)) :
    ∀ (w : World) (l : List Buffer) (x y : Buffer), w.bufs = l ++ [x, y] →
      chunks.foldl (fun w p => w.MultiWrite (l.length + 1) l.length p) w =
        { w with bufs := l ++ [⟨x.buf ++ chunks.flatten, x.off⟩, ⟨y.buf ++ chunks.flatten, y.off⟩] } := by
  induction chunks with
  | nil => intro w l x y h; simp [← h]
  | cons c cs ih =>
    intro w l x y h
    have h1 : w.MultiWrite (l.length + 1) l.length c =
        { w with bufs := l ++ [x.Write c, y.Write c] } := by
      simp [World.MultiWrite, h, modify_append_length_succ, modify_append_length]
    rw [List.foldl_cons, h1, ih _ l (x.Write c) (y.Write c) rfl]
    simp [Buffer.Write, List.append_assoc]

/-- The copy inside `DuplicateRequest`: after two empty buffers are allocated at
the end of the store and the body is copied into them, both hold everything the
body delivered; the request structs are untouched. -/
theorem Copy_fresh (w : World) (body : Body) (hv : w.live body) :
    (({ w with bufs := w.bufs ++ [Buffer.mk [] 0, Buffer.mk [] 0] } : World).Copy
        (w.bufs.length + 1) w.bufs.length body).1.reqs = w.reqs ∧
    ∃ X : List Buffer, X.length = w.bufs.length ∧
      (({ w with bufs := w.bufs ++ [Buffer.mk [] 0, Buffer.mk [] 0] } : World).Copy
        (w.bufs.length + 1) w.bufs.length body).1.bufs =
      X ++ [⟨(w.readBody body).1.flatten, 0⟩, ⟨(w.readBody body).1.flatten, 0⟩] := by
  cases body with
  | conn s =>
    cases hs : w.streams[s]? with
    | none =>
      simp [World.Copy, World.readBody, hs]
    | some st =>
      simp only [World.Copy, World.readBody, hs]
      rw [foldl_MultiWrite st.chunks _ w.bufs ⟨[], 0⟩ ⟨[], 0⟩ rfl]
      exact ⟨rfl, w.bufs, rfl, by simp⟩
  | nopCloser b =>
    have hlt : b < w.bufs.length := hv
    have h1 : (w.bufs ++ [Buffer.mk [] 0, Buffer.mk [] 0])[b]? = w.bufs[b]? :=
      List.getElem?_append_left hlt
    obtain ⟨bf, hbf⟩ : ∃ bf, w.bufs[b]? = some bf := ⟨w.bufs[b], by simp [hlt]⟩
    simp only [World.Copy, World.readBody, h1, hbf]
    have h2 : (w.bufs ++ [Buffer.mk [] 0, Buffer.mk [] 0]).set b bf.drain =
        w.bufs.set b bf.drain ++ [Buffer.mk [] 0, Buffer.mk [] 0] := by
      rw [List.set_append_left _ _ hlt]
    have h3 := foldl_MultiWrite [bf.unread]
      { w with bufs := (w.bufs ++ [Buffer.mk [] 0, Buffer.mk [] 0]).set b bf.drain }
      (w.bufs.set b bf.drain) ⟨[], 0⟩ ⟨[], 0⟩ h2
    simp only [List.length_set] at h3
    rw [h3]
    exact ⟨rfl, w.bufs.set b bf.drain, by simp, by simp⟩

/-- Reading the body of a request that wraps a buffer: the unread bytes, and the
buffer drained. -/
theorem readRequestBody_nopCloser (w : World) (p b : Nat) (r : Request) (bf : Buffer)
    (hr : w.reqs[p]? = some r) (hb : r.Body = .nopCloser b) (hbf : w.bufs[b]? = some bf) :
    w.readRequestBody p = some (bf.unread, none, { w with bufs := w.bufs.set b bf.drain }) := by
  simp [World.readRequestBody, hr, World.ReadAll, World.readBody, hb, hbf]

/-- Two requests wrapping two different buffers that hold the same unread bytes
`B`: each body reads back `B`, also after the other one has been read. -/
theorem read_two_bodies (W : World) (p1 p2 b1 b2 : Nat) (r1 r2 : Request) (B : List Byte)
    (h1 : W.reqs[p1]? = some r1) (h2 : W.reqs[p2]? = some r2)
    (hb1 : r1.Body = .nopCloser b1) (hb2 : r2.Body = .nopCloser b2) (hne : b1 ≠ b2)
    (hB1 : W.bufs[b1]? = some ⟨B, 0⟩) (hB2 : W.bufs[b2]? = some ⟨B, 0⟩) :
    (W.readRequestBody p1).map (fun x => (x.1, x.2.1)) = some (B, none) ∧
    (W.readRequestBody p2).map (fun x => (x.1, x.2.1)) = some (B, none) ∧
    ((W.readRequestBody p1).bind (fun x => x.2.2.readRequestBody p2)).map
      (fun x => (x.1, x.2.1)) = some (B, none) ∧
    ((W.readRequestBody p2).bind (fun x => x.2.2.readRequestBody p1)).map
      (fun x => (x.1, x.2.1)) = some (B, none) := by
  have e1 := readRequestBody_nopCloser W p1 b1 r1 _ h1 hb1 hB1
  have e2 := readRequestBody_nopCloser W p2 b2 r2 _ h2 hb2 hB2
  have e12 := readRequestBody_nopCloser { W with bufs := W.bufs.set b1 (Buffer.drain ⟨B, 0⟩) }
    p2 b2 r2 ⟨B, 0⟩ h2 hb2 (by simp [List.getElem?_set_ne hne, hB2])
  have e21 := readRequestBody_nopCloser { W with bufs := W.bufs.set b2 (Buffer.drain ⟨B, 0⟩) }
    p1 b1 r1 ⟨B, 0⟩ h1 hb1 (by simp [List.getElem?_set_ne hne.symm, hB1])
  refine ⟨?_, ?_, ?_, ?_⟩
  · rw [e1]; simp [Buffer.unread]
  · rw [e2]; simp [Buffer.unread]
  · rw [e1]; simp only [Option.some_bind]; rw [e12]; simp [Buffer.unread]
  · rw [e2]; simp only [Option.some_bind]; rw [e21]; simp [Buffer.unread]

/-- Whatever the body of the request delivers before its end, and however it
ends, `DuplicateRequest` returns two requests; the body of each reads back
exactly the bytes delivered, without error, also after the other body has been
read to completion. -/
theorem DuplicateRequest_copies (w : World) (request : Nat) (r : Request)
    (hr : w.reqs[request]? = some r) (hv : w.live r.Body) :
    ∃ request1 request2 w', DuplicateRequest w request = some (request1, request2, w') ∧
      request1 ≠ request2 ∧
      (w'.readRequestBody request1).map (fun x => (x.1, x.2.1))
        = some ((w.ReadAll r.Body).1, none) ∧
      (w'.readRequestBody request2).map (fun x => (x.1, x.2.1))
        = some ((w.ReadAll r.Body).1, none) ∧
      ((w'.readRequestBody request1).bind (fun x => x.2.2.readRequestBody request2)).map
        (fun x => (x.1, x.2.1)) = some ((w.ReadAll r.Body).1, none) ∧
      ((w'.readRequestBody request2).bind (fun x => x.2.2.readRequestBody request1)).map
        (fun x => (x.1, x.2.1)) = some ((w.ReadAll r.Body).1, none) := by
  obtain ⟨hreqs, X, hX, hbufs⟩ := Copy_fresh w r.Body hv
  refine ⟨_, _, _, by simp only [DuplicateRequest, hr]; exact rfl, by simp, ?_⟩
  generalize (({ w with bufs := w.bufs ++ [Buffer.mk [] 0, Buffer.mk [] 0] } : World).Copy
                (w.bufs.length + 1) w.bufs.length r.Body).1 = w2 at hreqs hbufs ⊢
  exact read_two_bodies _ _ _ (w.bufs.length + 1) w.bufs.length _ _ _
    (getElem?_append_length _ _ _) (getElem?_append_length_succ _ _ _ _) rfl rfl (by simp)
    (by simp only [hbufs, ← hX]; exact getElem?_append_length_succ _ _ _ _)
    (by simp only [hbufs, ← hX]; exact getElem?_append_length _ _ _)

/-- C3. For every request with a live body that reads to completion without
error, yielding the bytes `B`, `DuplicateRequest` returns two different
requests; the body of each reads back exactly `B` without error, and it still
does after the other body has been read to completion. -/
theorem DuplicateRequest_bodies (w : World) (request : Nat) (r : Request) (B : List Byte)
    (hr : w.reqs[request]? = some r) (hv : w.live r.Body)
    (hB : (w.ReadAll r.Body).1 = B) (herr : (w.ReadAll r.Body).2.1 = none) :
    ∃ request1 request2 w', DuplicateRequest w request = some (request1, request2, w') ∧
      request1 ≠ request2 ∧
      (w'.readRequestBody request1).map (fun x => (x.1, x.2.1)) = some (B, none) ∧
      (w'.readRequestBody request2).map (fun x => (x.1, x.2.1)) = some (B, none) ∧
      ((w'.readRequestBody request1).bind (fun x => x.2.2.readRequestBody request2)).map
        (fun x => (x.1, x.2.1)) = some (B, none) ∧
      ((w'.readRequestBody request2).bind (fun x => x.2.2.readRequestBody request1)).map
        (fun x => (x.1, x.2.1)) = some (B, none) := by
  have _ := herr
  have h := DuplicateRequest_copies w request r hr hv
  rw [hB] at h
  exact h

theorem DuplicateRequest_bodies_witness :
    exampleWorld.reqs[0]? = some exampleWorld.reqs[0] ∧
    exampleWorld.live (Body.conn 0) ∧
    (exampleWorld.ReadAll (Body.conn 0)).1 = [104, 101, 108, 108, 111] ∧
    (exampleWorld.ReadAll (Body.conn 0)).2.1 = none ∧
    ∃ request1 request2 w', DuplicateRequest exampleWorld 0 = some (request1, request2, w') ∧
      request1 ≠ request2 ∧
      (w'.readRequestBody request1).map (fun x => (x.1, x.2.1))
        = some ([104, 101, 108, 108, 111], none) ∧
      (w'.readRequestBody request2).map (fun x => (x.1, x.2.1))
        = some ([104, 101, 108, 108, 111], none) ∧
      ((w'.readRequestBody request1).bind (fun x => x.2.2.readRequestBody request2)).map
        (fun x => (x.1, x.2.1)) = some ([104, 101, 108, 108, 111], none) ∧
      ((w'.readRequestBody request2).bind (fun x => x.2.2.readRequestBody request1)).map
        (fun x => (x.1, x.2.1)) = some ([104, 101, 108, 108, 111], none) :=
  ⟨rfl, by decide, rfl, rfl,
    DuplicateRequest_bodies exampleWorld 0 _ _ rfl (by decide) rfl rfl⟩

/-- C9, as the code behaves. When reading the body of the request fails with an
error `e` after delivering some bytes, `DuplicateRequest` still returns two
requests and no error; the body of each reads back exactly the bytes delivered
before the failure, and reports no error. -/
theorem DuplicateRequest_read_error (w : World) (request : Nat) (r : Request) (e : String)
    (hr : w.reqs[request]? = some r) (hv : w.live r.Body)
    (he : (w.ReadAll r.Body).2.1 = some e) :
    (w.ReadAll r.Body).2.1 ≠ none ∧
    ∃ request1 request2 w', DuplicateRequest w request = some (request1, request2, w') ∧
      (w'.readRequestBody request1).map (fun x => (x.1, x.2.1))
        = some ((w.ReadAll r.Body).1, none) ∧
      (w'.readRequestBody request2).map (fun x => (x.1, x.2.1))
        = some ((w.ReadAll r.Body).1, none) := by
  obtain ⟨p1, p2, w', h1, _, h2, h3, _⟩ := DuplicateRequest_copies w request r hr hv
  exact ⟨by rw [he]; simp, p1, p2, w', h1, h2, h3⟩

theorem DuplicateRequest_read_error_witness :
    exampleWorldCut.reqs[0]? = some exampleWorldCut.reqs[0] ∧
    (exampleWorldCut.ReadAll (Body.conn 0)).2.1 = some "unexpected EOF" ∧
    ∃ request1 request2 w', DuplicateRequest exampleWorldCut 0 = some (request1, request2, w') ∧
      (w'.readRequestBody request1).map (fun x => (x.1, x.2.1)) = some ([104, 101], none) ∧
      (w'.readRequestBody request2).map (fun x => (x.1, x.2.1)) = some ([104, 101], none) :=
  ⟨rfl, rfl, (DuplicateRequest_read_error exampleWorldCut 0 _ "unexpected EOF" rfl (by decide)
    rfl).2⟩

/-- C9, counterexample. The body of the request fails with `unexpected EOF`
after two bytes; `DuplicateRequest` returns the two requests 1 and 2, and each
body reads back the two bytes with no error. -/
theorem DuplicateRequest_drops_read_error :
    (exampleWorldCut.ReadAll (Body.conn 0)).2.1 = some "unexpected EOF" ∧
    (DuplicateRequest exampleWorldCut 0).map (fun x => (x.1, x.2.1)) = some (1, 2) ∧
    ((DuplicateRequest exampleWorldCut 0).bind (fun x => x.2.2.readRequestBody 1)).map
      (fun y => (y.1, y.2.1)) = some ([104, 101], none) ∧
    ((DuplicateRequest exampleWorldCut 0).bind (fun x => x.2.2.readRequestBody 2)).map
      (fun y => (y.1, y.2.1)) = some ([104, 101], none) := by
  decide

/-! ## Bodies with a recovering deferred call -/

/-- If the first deferred call registered stops every panic, no panic leaves
the deferred calls. -/
theorem unwind_recovered (d : Deferred) (hd : ∀ p, (d p).2 = none) :
    ∀ (ds : List Deferred) (p : Option String), (unwind (ds ++ [d]) p).2 = none := by
  intro ds
  induction ds with
  | nil => intro p; simp [unwind, hd]
  | cons x xs ih => intro p; simp [unwind, ih]

/-- If the first deferred call registered stops every panic, no panic leaves
the body, wherever it is raised. -/
theorem runBody_recovered (d : Deferred) (hd : ∀ p, (d p).2 = none) :
    ∀ (is : List Instr) (fault : Option (Nat × String)) (ds : List Deferred),
      (runBody is fault (ds ++ [d])).2 = none := by
  intro is
  induction is with
  | nil => intro fault ds; simp [runBody, unwind_recovered d hd]
  | cons i is ih =>
    intro fault ds
    cases i with
    | defer e => simpa [runBody] using ih fault (e :: ds)
    | step s =>
      rcases fault with _ | ⟨n, v⟩
      · cases hp : s.panics with
        | none => simpa [runBody, hp] using ih none ds
        | some pv => simp [runBody, hp, unwind_recovered d hd]
      · cases n with
        | zero => simp [runBody, unwind_recovered d hd]
        | succ n =>
          cases hp : s.panics with
          | none => simpa [runBody, hp] using ih (some (n, v)) ds
          | some pv => simp [runBody, hp, unwind_recovered d hd]

/-- The steps of deferred calls that only perform steps satisfying `Q` satisfy
`Q`. -/
theorem unwind_all (Q : Step → Prop) (ds : List Deferred)
    (hds : ∀ d ∈ ds, ∀ r, ∀ s ∈ (d r).1, Q s) :
    ∀ r, ∀ s ∈ (unwind ds r).1, Q s := by
  induction ds with
  | nil => intro r s hs; simp [unwind] at hs
  | cons d ds ih =>
    intro r s hs
    simp only [unwind, List.mem_append] at hs
    rcases hs with hs | hs
    · exact hds d (List.mem_cons_self _ _) r s hs
    · exact ih (fun x hx => hds x (List.mem_cons_of_mem _ hx)) _ s hs

/-- Every step a body performs, wherever it is cut short, is one of its steps or
a step of one of its deferred calls. -/
theorem runBody_all (Q : Step → Prop) :
    ∀ (is : List Instr) (fault : Option (Nat × String)) (ds : List Deferred),
      (∀ s, Instr.step s ∈ is → Q s) →
      (∀ d, Instr.defer d ∈ is → ∀ r, ∀ s ∈ (d r).1, Q s) →
      (∀ d ∈ ds, ∀ r, ∀ s ∈ (d r).1, Q s) →
      ∀ s ∈ (runBody is fault ds).1, Q s := by
  intro is
  induction is with
  | nil => intro fault ds _ _ hds; exact unwind_all Q ds hds none
  | cons i is ih =>
    intro fault ds hst hdf hds
    have hst' : ∀ s, Instr.step s ∈ is → Q s := fun s hs => hst s (List.mem_cons_of_mem _ hs)
    have hdf' : ∀ d, Instr.defer d ∈ is → ∀ r, ∀ s ∈ (d r).1, Q s :=
      fun d hd => hdf d (List.mem_cons_of_mem _ hd)
    cases i with
    | defer d =>
      refine ih fault (d :: ds) hst' hdf' ?_
      intro x hx
      rcases List.mem_cons.1 hx with rfl | hx
      · exact hdf x (List.mem_cons_self _ _)
      · exact hds x hx
    | step s =>
      have hQs : Q s := hst s (List.mem_cons_self _ _)
      rcases fault with _ | ⟨n, v⟩
      · cases hp : s.panics with
        | none =>
          intro x hx
          simp only [runBody, hp, List.mem_cons] at hx
          rcases hx with rfl | hx
          · exact hQs
          · exact ih none ds hst' hdf' hds x hx
        | some pv =>
          intro x hx
          simp only [runBody, hp] at hx
          exact unwind_all Q ds hds _ x hx
      · cases n with
        | zero =>
          intro x hx
          simp only [runBody] at hx
          exact unwind_all Q ds hds _ x hx
        | succ n =>
          cases hp : s.panics with
          | none =>
            intro x hx
            simp only [runBody, hp, List.mem_cons] at hx
            rcases hx with rfl | hx
            · exact hQs
            · exact ih (some (n, v)) ds hst' hdf' hds x hx
          | some pv =>
            intro x hx
            simp only [runBody, hp] at hx
            exact unwind_all Q ds hds _ x hx

/-- Deferred calls that pass, above a first deferred call `d`: a step satisfying
`P` is performed exactly when `d` performs one for the panic in flight. -/
theorem unwind_passes (P : Step → Prop) (d : Deferred) :
    ∀ (ds : List Deferred) (p : Option String), (∀ e ∈ ds, Deferred.passes P e) →
      ((∃ s ∈ (unwind (ds ++ [d]) p).1, P s) ↔ ∃ s ∈ (d p).1, P s) := by
  intro ds
  induction ds with
  | nil => intro p _; simp [unwind]
  | cons x xs ih =>
    intro p h
    have hx := h x (List.mem_cons_self _ _)
    have hxs : ∀ e ∈ xs, Deferred.passes P e := fun e he => h e (List.mem_cons_of_mem _ he)
    have := ih (x p).2 hxs
    rw [(hx p).1] at this
    simp only [List.cons_append, unwind, List.mem_append, (hx p).1]
    constructor
    · rintro ⟨s, hs | hs, hP⟩
      · exact absurd hP ((hx p).2 s hs)
      · exact this.1 ⟨s, hs, hP⟩
    · intro hd
      obtain ⟨s, hs, hP⟩ := this.2 hd
      exact ⟨s, Or.inr hs, hP⟩

/-- A quiet body, none of whose steps panics by itself, above a first deferred
call `d`: a step satisfying `P` is performed exactly when `d` performs one, for
the panic raised in the body or for none if the body returns. -/
theorem runBody_quiet (P : Step → Prop) (d : Deferred) :
    ∀ (is : List Instr) (fault : Option (Nat × String)) (ds : List Deferred),
      (∀ i ∈ is, Instr.quiet P i) → (∀ s, Instr.step s ∈ is → s.panics = none) →
      (∀ e ∈ ds, Deferred.passes P e) →
      ((∃ s ∈ (runBody is fault (ds ++ [d])).1, P s) ↔
        ∃ s ∈ (d (match fault with
                  | some (n, v) => if n < stepCount is then some v else none
                  | none => none)).1, P s) := by
  intro is
  induction is with
  | nil =>
    intro fault ds _ _ hds
    rcases fault with _ | ⟨n, v⟩ <;> simpa [runBody, stepCount] using unwind_passes P d ds none hds
  | cons i is ih =>
    intro fault ds his hnp hds
    have hi := his i (List.mem_cons_self _ _)
    have his' : ∀ j ∈ is, Instr.quiet P j := fun j hj => his j (List.mem_cons_of_mem _ hj)
    have hnp' : ∀ s, Instr.step s ∈ is → s.panics = none :=
      fun s hs => hnp s (List.mem_cons_of_mem _ hs)
    cases i with
    | defer e =>
      have hds' : ∀ x ∈ e :: ds, Deferred.passes P x := by
        intro x hx
        rcases List.mem_cons.1 hx with rfl | hx
        · exact hi
        · exact hds x hx
      simpa [runBody, stepCount] using ih fault (e :: ds) his' hnp' hds'
    | step s =>
      have hs : ¬ P s := hi
      have hp : s.panics = none := hnp s (List.mem_cons_self _ _)
      rcases fault with _ | ⟨n, v⟩
      · have := ih none ds his' hnp' hds
        simp only [runBody, hp, List.mem_cons, exists_eq_or_imp, hs, false_or]
        simpa using this
      · cases n with
        | zero => simpa [runBody, stepCount] using unwind_passes P d ds (some v) hds
        | succ n =>
          have := ih (some (n, v)) ds his' hnp' hds
          simp only [runBody, hp, List.mem_cons, exists_eq_or_imp, hs, false_or, stepCount,
            Nat.add_lt_add_iff_right]
          simpa using this

set_option maxHeartbeats 2000000 in
/-- After its first `defer`, the body of `forwardToAlternate` performs steps of
the alternate path proper only. -/
theorem forwardToAlternate_quiet (h : Handler) (alternativeRequest : Nat) (env : Backend) :
    ∃ rest, forwardToAlternate h alternativeRequest env = .defer (recoverAlternate h) :: rest ∧
      ∀ i ∈ rest, Instr.quiet (fun s => ¬ s.alternateBody alternativeRequest) i := by
  refine ⟨_, rfl, ?_⟩
  rcases env with ⟨dial, write, readErr, resp, fault⟩
  by_cases hc : readErr ≠ none ∧ readErr ≠ some ConnErr.ErrPersistEOF <;>
    cases dial <;> cases write <;> cases h.Debug <;> cases h.AlternateHostRewrite <;>
    simp only [hc, List.forall_mem_append, List.forall_mem_cons, List.append_eq, if_true,
      if_false, Bool.false_eq_true, List.not_mem_nil, false_implies, implies_true, and_true,
      true_and, ne_eq, not_false_eq_true, and_self] <;>
    simp [Instr.quiet, Deferred.passes, Step.alternateBody, Step.isPublic, Step.owned,
      Step.isRecovery]

/-- After its first `defer`, the forward to the primary touches no request
struct but `productionRequest`. -/
theorem forwardToPrimary_quiet (h : Handler) (productionRequest : Nat) (env : Backend) :
    ∃ rest, forwardToPrimary h productionRequest env = .defer (recoverServeHTTP h) :: rest ∧
      ∀ i ∈ rest, Instr.quiet (fun s => ¬ s.owned productionRequest) i := by
  refine ⟨_, rfl, ?_⟩
  rcases env with ⟨dial, write, readErr, resp, fault⟩
  by_cases hc : readErr ≠ none ∧ readErr ≠ some ConnErr.ErrPersistEOF <;>
    cases dial <;> cases write <;> cases h.ProductionHostRewrite <;>
    simp [hc, Instr.quiet, Deferred.passes, Step.owned] <;>
    rintro a (⟨k, v, -, rfl⟩ | rfl | rfl | rfl | rfl | rfl) <;> trivial

/-- A body whose first statement defers a call that stops every panic performs
the steps of `runBody` and never crashes. -/
theorem steps_recovered (d : Deferred) (hd : ∀ p, (d p).2 = none) (rest : List Instr)
    (fault : Option (Nat × String)) :
    steps (.defer d :: rest) fault = (runBody rest fault ([] ++ [d])).1 := by
  have hnone := runBody_recovered d hd rest fault []
  have hrun : runBody (.defer d :: rest) fault [] = runBody rest fault ([] ++ [d]) := rfl
  simp only [steps, hrun, hnone]

/-- Every step of a body that is quiet for `¬ Q` above a recovering deferred call
whose own steps satisfy `Q`, satisfies `Q`. -/
theorem steps_all (Q : Step → Prop) (d : Deferred) (hd : ∀ p, (d p).2 = none)
    (hdQ : ∀ p, ∀ s ∈ (d p).1, Q s) (rest : List Instr)
    (hq : ∀ i ∈ rest, Instr.quiet (fun s => ¬ Q s) i) (fault : Option (Nat × String)) :
    ∀ s ∈ steps (.defer d :: rest) fault, Q s := by
  intro s hs
  rw [steps_recovered d hd] at hs
  refine runBody_all Q rest fault ([] ++ [d]) ?_ ?_ ?_ s hs
  · intro x hx
    exact not_not.1 (hq _ hx)
  · intro e he r x hx
    exact not_not.1 (((hq _ he) r).2 x hx)
  · intro e he r x hx
    simp only [List.nil_append, List.mem_singleton] at he
    subst he
    exact hdQ r x hx

theorem Instr.quiet_mono (P Q : Step → Prop) (hPQ : ∀ s, Q s → P s) (i : Instr)
    (hi : Instr.quiet P i) : Instr.quiet Q i := by
  cases i with
  | step s => exact fun hq => hi (hPQ s hq)
  | defer d => exact fun p => ⟨(hi p).1, fun s hs hq => (hi p).2 s hs (hPQ s hq)⟩

/-- C8. For both values of `Debug` and wherever a panic is raised in the body of
`forwardToAlternate`, no panic leaves the function and the goroutine does not
crash the process; the recovery is logged exactly when a panic was raised and
`Debug` is set. -/
theorem forwardToAlternate_contains_panic (h : Handler) (alternativeRequest : Nat)
    (env : Backend) :
    (runBody (forwardToAlternate h alternativeRequest env) env.fault []).2 = none ∧
    (∀ v, Step.Crash v ∉ steps (forwardToAlternate h alternativeRequest env) env.fault) ∧
    (Step.Log .warn "Recovered in forwardToAlternate" ∈
        steps (forwardToAlternate h alternativeRequest env) env.fault ↔
      h.Debug = true ∧ ∃ n v, env.fault = some (n, v) ∧
        n < stepCount (forwardToAlternate h alternativeRequest env)) := by
  obtain ⟨rest, hb, hq⟩ := forwardToAlternate_quiet h alternativeRequest env
  have hrun : runBody (forwardToAlternate h alternativeRequest env) env.fault [] =
      runBody rest env.fault ([] ++ [recoverAlternate h]) := by rw [hb]; rfl
  have hnone := runBody_recovered (recoverAlternate h) (fun _ => rfl) rest env.fault []
  have hsteps : steps (forwardToAlternate h alternativeRequest env) env.fault =
      (runBody rest env.fault ([] ++ [recoverAlternate h])).1 := by
    rw [hb]; exact steps_recovered _ (fun _ => rfl) rest env.fault
  have hcount : stepCount (forwardToAlternate h alternativeRequest env) = stepCount rest := by
    rw [hb]; rfl
  refine ⟨by rw [hrun]; exact hnone, ?_, ?_⟩
  · intro v hv
    have hall := steps_all (fun s => s.isPublic = false) (recoverAlternate h) (fun _ => rfl)
      (by intro p s hs; simp only [recoverAlternate] at hs; split_ifs at hs <;> simp at hs
          subst hs; rfl)
      rest (fun i hi => Instr.quiet_mono _ _ (fun s hs hb => hs hb.1) i (hq i hi)) env.fault
    have := hall _ (hb ▸ hv)
    simp [Step.isPublic] at this
  · have hq2 : ∀ i ∈ rest,
        Instr.quiet (fun s => s = Step.Log .warn "Recovered in forwardToAlternate") i :=
      fun i hi => Instr.quiet_mono _ _ (fun s hs hb => hb.2.2 (by rw [hs]; trivial)) i (hq i hi)
    have hnp : ∀ s, Instr.step s ∈ rest → s.panics = none := by
      intro s hs
      have hpub : s.isPublic = false := (not_not.1 (hq _ hs)).1
      cases s <;> first | rfl | simp [Step.isPublic] at hpub
    have := runBody_quiet _ (recoverAlternate h) rest env.fault [] hq2 hnp (by simp)
    simp only [exists_eq_right] at this
    rw [hsteps, this, hcount]
    rcases env.fault with _ | ⟨n, v⟩
    · simp [recoverAlternate]
    · by_cases hn : n < stepCount rest <;> cases hD : h.Debug <;>
        simp [recoverAlternate, hn, hD]

/-! ## Views of the world and interleaved runs -/

/-- Reading a body changes only the object read. -/
theorem readBody_frame (w : World) (body : Body) :
    (w.readBody body).2.2.reqs = w.reqs ∧ (w.readBody body).2.2.hdrs = w.hdrs ∧
    (w.readBody body).2.2.client = w.client ∧ (w.readBody body).2.2.trace = w.trace ∧
    (w.readBody body).2.2.wire = w.wire ∧ (w.readBody body).2.2.rng = w.rng ∧
    (w.readBody body).2.2.spawned = w.spawned := by
  cases body with
  | conn s => cases hs : w.streams[s]? <;> simp [World.readBody, hs]
  | nopCloser c => cases hc : w.bufs[c]? <;> simp [World.readBody, hc]

/-- Reading a body leaves the other buffers as they are. -/
theorem readBody_bufs_ne (w : World) (body : Body) (b : Nat) (hb : body ≠ .nopCloser b) :
    (w.readBody body).2.2.bufs[b]? = w.bufs[b]? := by
  cases body with
  | conn s => cases hs : w.streams[s]? <;> simp [World.readBody, hs]
  | nopCloser c =>
    have hcb : c ≠ b := fun h => hb (by rw [h])
    cases hc : w.bufs[c]? <;> simp [World.readBody, hc, List.getElem?_set_ne hcb]

theorem holds_exec (p b : Nat) (e : Task × Step) (w : World) (hw : w.holds p b) :
    (exec e w).holds p b := by
  obtain ⟨r, hr, hb⟩ := hw
  rcases e with ⟨t, s⟩
  cases s <;> try exact ⟨r, hr, hb⟩
  case SetHost q host =>
    simp only [World.holds, exec, effect]
    cases hq : w.reqs[q]? with
    | none => exact ⟨r, hr, hb⟩
    | some rq =>
      by_cases hpq : q = p
      · subst hpq
        rw [hr] at hq; cases hq
        have hlt : q < w.reqs.length := by
          by_contra hge
          simp [List.getElem?_eq_none (Nat.le_of_not_lt hge)] at hr
        exact ⟨{ r with Host := host }, by simp [List.getElem?_set_self, hlt], hb⟩
      · exact ⟨r, by simp [List.getElem?_set_ne hpq, hr], hb⟩
  case ConnWrite addr q =>
    simp only [World.holds, exec, effect]
    cases hq : w.reqs[q]? with
    | none => exact ⟨r, hr, hb⟩
    | some rq =>
      exact ⟨r, by simp [World.ReadAll, (readBody_frame w rq.Body).1, hr], hb⟩

/-- A run followed from the point of view of goroutine `t`: if the steps of the
other goroutine leave the view `π` unchanged and the steps of `t` act on the
view alone, the view after the run is the view after the steps of `t` run by
themselves. -/
theorem run_view {V : Type} (π : World → V) (Inv : World → Prop) (t : Task) :
    ∀ (L : List (Task × Step)),
      (∀ e ∈ L, ∀ w, Inv w → Inv (exec e w)) →
      (∀ e ∈ L, e.1 ≠ t → ∀ w, Inv w → π (exec e w) = π w) →
      (∀ e ∈ L, e.1 = t → ∀ w w', Inv w → Inv w' → π w = π w' →
        π (exec e w) = π (exec e w')) →
      ∀ w w', Inv w → Inv w' → π w = π w' →
        π (run L w) = π (run (L.filter (fun e => decide (e.1 = t))) w') := by
  intro L
  induction L with
  | nil => intro _ _ _ w w' _ _ h; simpa [run] using h
  | cons e L ih =>
    intro hInv hother hown w w' hw hw' h
    have hInv' : ∀ x ∈ L, ∀ w, Inv w → Inv (exec x w) :=
      fun x hx => hInv x (List.mem_cons_of_mem _ hx)
    have hother' : ∀ x ∈ L, x.1 ≠ t → ∀ w, Inv w → π (exec x w) = π w :=
      fun x hx => hother x (List.mem_cons_of_mem _ hx)
    have hown' : ∀ x ∈ L, x.1 = t → ∀ w w', Inv w → Inv w' → π w = π w' →
        π (exec x w) = π (exec x w') := fun x hx => hown x (List.mem_cons_of_mem _ hx)
    have he := List.mem_cons_self e L
    by_cases het : e.1 = t
    · have : (e :: L).filter (fun e => decide (e.1 = t)) =
          e :: L.filter (fun e => decide (e.1 = t)) := by simp [het]
      rw [this]
      simp only [run, List.foldl_cons]
      exact ih hInv' hother' hown' _ _ (hInv e he w hw) (hInv e he w' hw')
        (hown e he het w w' hw hw' h)
    · have : (e :: L).filter (fun e => decide (e.1 = t)) =
          L.filter (fun e => decide (e.1 = t)) := by simp [het]
      rw [this]
      simp only [run, List.foldl_cons]
      exact ih hInv' hother' hown' _ _ (hInv e he w hw) hw'
        ((hother e he het w hw).trans h)

theorem interleave_mem (sched : List Bool) :
    ∀ (ps ss : List Step) (e : Task × Step), e ∈ interleave sched ps ss →
      (e.1 = Task.primary ∧ e.2 ∈ ps) ∨ (e.1 = Task.shadow ∧ e.2 ∈ ss) := by
  induction sched with
  | nil =>
    intro ps ss e he
    simp only [interleave, List.mem_append, List.mem_map] at he
    rcases he with ⟨s, hs, rfl⟩ | ⟨s, hs, rfl⟩
    · exact Or.inl ⟨rfl, hs⟩
    · exact Or.inr ⟨rfl, hs⟩
  | cons b bs ih =>
    intro ps ss e he
    cases b with
    | true =>
      cases ps with
      | nil => simpa [interleave] using ih [] ss e (by simpa [interleave] using he)
      | cons p ps =>
        simp only [interleave, List.mem_cons] at he
        rcases he with rfl | he
        · exact Or.inl ⟨rfl, List.mem_cons_self _ _⟩
        · rcases ih ps ss e he with h | h
          · exact Or.inl ⟨h.1, List.mem_cons_of_mem _ h.2⟩
          · exact Or.inr h
    | false =>
      cases ss with
      | nil => simpa [interleave] using ih ps [] e (by simpa [interleave] using he)
      | cons s ss =>
        simp only [interleave, List.mem_cons] at he
        rcases he with rfl | he
        · exact Or.inr ⟨rfl, List.mem_cons_self _ _⟩
        · rcases ih ps ss e he with h | h
          · exact Or.inl h
          · exact Or.inr ⟨h.1, List.mem_cons_of_mem _ h.2⟩

/-- Every schedule runs all steps of the serving goroutine, in order. -/
theorem interleave_filter_primary (sched : List Bool) :
    ∀ (ps ss : List Step),
      (interleave sched ps ss).filter (fun e => decide (e.1 = Task.primary)) =
        ps.map (Prod.mk Task.primary) := by
  induction sched with
  | nil => intro ps ss; simp [interleave, List.filter_map, Function.comp_def]
  | cons b bs ih =>
    intro ps ss
    cases b with
    | true => cases ps with
      | nil => simpa [interleave] using ih [] ss
      | cons p ps => simpa [interleave] using ih ps ss
    | false => cases ss with
      | nil => simpa [interleave] using ih ps []
      | cons s ss => simpa [interleave] using ih ps ss

/-- Every schedule runs all steps of the started goroutine, in order. -/
theorem interleave_filter_shadow (sched : List Bool) :
    ∀ (ps ss : List Step),
      (interleave sched ps ss).filter (fun e => decide (e.1 = Task.shadow)) =
        ss.map (Prod.mk Task.shadow) := by
  induction sched with
  | nil => intro ps ss; simp [interleave, List.filter_map, Function.comp_def]
  | cons b bs ih =>
    intro ps ss
    cases b with
    | true => cases ps with
      | nil => simpa [interleave] using ih [] ss
      | cons p ps => simpa [interleave] using ih ps ss
    | false => cases ss with
      | nil => simpa [interleave] using ih ps []
      | cons s ss => simpa [interleave] using ih ps ss

/-! ## Steps and views -/

theorem getElem?_set_self_of_some {α : Type} (l : List α) (i : Nat) (a c : α)
    (h : l[i]? = some a) : (l.set i c)[i]? = some c := by
  have hlt : i < l.length := by
    by_contra hge
    simp [List.getElem?_eq_none (Nat.le_of_not_lt hge)] at h
  simp [List.getElem?_set_self, hlt]

/-- A step of the started goroutine that is not public and touches only the
request at `q` (wrapping buffer `c`) is invisible in the view of the serving
goroutine on the request at `p ≠ q` and buffer `b ≠ c`. -/
theorem primaryView_shadow_step (p b q c : Nat) (s : Step) (hs : s.isPublic = false)
    (ho : s.owned q) (hqp : q ≠ p) (hcb : c ≠ b) (w : World) (hw : w.holds q c) :
    (exec (Task.shadow, s) w).primaryView p b = w.primaryView p b := by
  obtain ⟨r, hr, hb⟩ := hw
  cases s <;> simp only [Step.isPublic, Bool.true_eq_false] at hs <;>
    try (simp [World.primaryView, exec, effect, visible, Step.isPublic, hs]; done)
  case SetHost q' host =>
    have : q' = q := ho
    subst this
    simp [World.primaryView, exec, effect, visible, Step.isPublic, hr, List.getElem?_set_ne hqp]
  case ConnWrite addr q' =>
    have : q' = q := ho
    subst this
    have hne : r.Body ≠ .nopCloser b := by rw [hb]; intro h; cases h; exact hcb rfl
    have hf := readBody_frame w r.Body
    simp [World.primaryView, exec, effect, visible, Step.isPublic, hr, World.ReadAll, hf.1,
      hf.2.1, hf.2.2.1, hf.2.2.2.1, hf.2.2.2.2.1, readBody_bufs_ne w r.Body b hne]

/-- A step of the serving goroutine that touches only the request at `p`
(wrapping buffer `b`) is invisible in the view of the started goroutine on the
request at `q ≠ p` and buffer `c ≠ b`. -/
theorem shadowView_primary_step (p b q c : Nat) (s : Step)
    (ho : s.owned p) (hqp : p ≠ q) (hcb : b ≠ c) (w : World) (hw : w.holds p b) :
    (exec (Task.primary, s) w).shadowView q c = w.shadowView q c := by
  obtain ⟨r, hr, hb⟩ := hw
  cases s <;> try (simp [World.shadowView, exec, effect]; done)
  case SetHost q' host =>
    have : q' = p := ho
    subst this
    simp [World.shadowView, exec, effect, hr, List.getElem?_set_ne hqp]
  case ConnWrite addr q' =>
    have : q' = p := ho
    subst this
    have hne : r.Body ≠ .nopCloser c := by rw [hb]; intro h; cases h; exact hcb rfl
    have hf := readBody_frame w r.Body
    simp [World.shadowView, exec, effect, hr, World.ReadAll, hf.1,
      hf.2.1, hf.2.2.1, hf.2.2.2.1, hf.2.2.2.2.1, readBody_bufs_ne w r.Body c hne]

/-- A step of the serving goroutine on the request at `p` acts on its view
alone: from two worlds with the same view it leads to the same view. -/
theorem primaryView_primary_step (p b : Nat) (s : Step) (ho : s.owned p) (w w' : World)
    (hw : w.holds p b) (hw' : w'.holds p b) (h : w.primaryView p b = w'.primaryView p b) :
    (exec (Task.primary, s) w).primaryView p b = (exec (Task.primary, s) w').primaryView p b := by
  simp only [World.primaryView, Prod.mk.injEq] at h
  obtain ⟨hc, ht, hwi, hrq, hbf, hh⟩ := h
  obtain ⟨r, hr, hb⟩ := hw
  obtain ⟨r', hr', hb'⟩ := hw'
  have hrr : r = r' := by rw [hr, hr'] at hrq; exact Option.some.inj hrq
  subst hrr
  cases s <;>
    try (simp [World.primaryView, exec, effect, List.filter_append, hc, ht, hwi, hrq, hbf, hh]; done)
  case SetHost q host =>
    have : q = p := ho
    subst this
    simp [World.primaryView, exec, effect, List.filter_append, hc, ht, hwi, hbf, hh, hr, hr',
      getElem?_set_self_of_some _ _ _ _ hr, getElem?_set_self_of_some _ _ _ _ hr']
  case ConnWrite addr q =>
    have : q = p := ho
    subst this
    cases hwb : w.bufs[b]? with
    | none =>
      have hwb' : w'.bufs[b]? = none := by rw [← hbf, hwb]
      simp [World.primaryView, exec, effect, List.filter_append, hc, ht, hwi, hh, hr, hr',
        World.ReadAll, World.readBody, hb, hwb, hwb', World.wireRequest, visible]
    | some bf =>
      have hwb' : w'.bufs[b]? = some bf := by rw [← hbf, hwb]
      simp [World.primaryView, exec, effect, List.filter_append, hc, ht, hwi, hh, hr, hr',
        World.ReadAll, World.readBody, hb, hwb, hwb', World.wireRequest, visible,
        getElem?_set_self_of_some _ _ _ _ hwb, getElem?_set_self_of_some _ _ _ _ hwb']

/-- A step of the started goroutine on the request at `q` acts on its view
alone. -/
theorem shadowView_shadow_step (q c : Nat) (s : Step) (ho : s.owned q) (w w' : World)
    (hw : w.holds q c) (hw' : w'.holds q c) (h : w.shadowView q c = w'.shadowView q c) :
    (exec (Task.shadow, s) w).shadowView q c = (exec (Task.shadow, s) w').shadowView q c := by
  simp only [World.shadowView, Prod.mk.injEq] at h
  obtain ⟨ht, hwi, hrq, hbf, hh⟩ := h
  obtain ⟨r, hr, hb⟩ := hw
  obtain ⟨r', hr', hb'⟩ := hw'
  have hrr : r = r' := by rw [hr, hr'] at hrq; exact Option.some.inj hrq
  subst hrr
  cases s <;>
    try (simp [World.shadowView, exec, effect, List.filter_append, ht, hwi, hrq, hbf, hh]; done)
  case SetHost p host =>
    have : p = q := ho
    subst this
    simp [World.shadowView, exec, effect, List.filter_append, ht, hwi, hbf, hh, hr, hr',
      getElem?_set_self_of_some _ _ _ _ hr, getElem?_set_self_of_some _ _ _ _ hr']
  case ConnWrite addr p =>
    have : p = q := ho
    subst this
    cases hwb : w.bufs[c]? with
    | none =>
      have hwb' : w'.bufs[c]? = none := by rw [← hbf, hwb]
      simp [World.shadowView, exec, effect, List.filter_append, ht, hwi, hh, hr, hr',
        World.ReadAll, World.readBody, hb, hwb, hwb', World.wireRequest]
    | some bf =>
      have hwb' : w'.bufs[c]? = some bf := by rw [← hbf, hwb]
      simp [World.shadowView, exec, effect, List.filter_append, ht, hwi, hh, hr, hr',
        World.ReadAll, World.readBody, hb, hwb, hwb', World.wireRequest,
        getElem?_set_self_of_some _ _ _ _ hwb, getElem?_set_self_of_some _ _ _ _ hwb']

/-! ## The handler on the initial world -/

theorem DuplicateRequest_sampled (i : Inbound) (rng : Rand) :
    DuplicateRequest (World.sampled i rng) 0 =
      some (1, 2, { World.dispatched i rng with spawned := [] }) := by
  have h := foldl_MultiWrite i.Body.chunks
    { World.sampled i rng with bufs := [Buffer.mk [] 0, Buffer.mk [] 0],
                               streams := [⟨[], i.Body.err⟩] } [] ⟨[], 0⟩ ⟨[], 0⟩ rfl
  simp only [List.length_nil, Nat.zero_add, List.nil_append] at h
  have hbody : i.request.Body = .conn 0 := rfl
  simp only [DuplicateRequest, World.sampled, World.Copy, World.readBody, hbody,
    List.getElem?_cons_zero, List.length_nil, Nat.zero_add, List.nil_append, List.set_cons_zero]
  simp only [World.sampled] at h
  rw [h]
  rfl

/-- The handler on the initial world, after the draw. -/
theorem ServeHTTP_init (h : Handler) (i : Inbound) (rng : Rand) (pri alt : Backend)
    (sched : List Bool) :
    ServeHTTP h 0 pri alt sched (World.init i rng) =
      if h.Percent = 100 ∨ rng.Float64.1 * 100 < h.Percent then
        match DuplicateRequest (World.sampled i rng) 0 with
        | none => exec (.primary, .Crash "nil pointer dereference") (World.sampled i rng)
        | some (alternativeRequest, productionRequest, w3) =>
          run (interleave sched (steps (forwardToPrimary h productionRequest pri) pri.fault)
                (steps (forwardToAlternate h alternativeRequest alt) alt.fault))
            { w3 with spawned := w3.spawned ++ [alternativeRequest] }
      else
        run ((steps (forwardToPrimary h 0 pri) pri.fault).map (Prod.mk Task.primary))
          (World.sampled i rng) := rfl

/-- The handler on the initial world when the request is mirrored. -/
theorem ServeHTTP_mirrored (h : Handler) (i : Inbound) (rng : Rand) (pri alt : Backend)
    (sched : List Bool) (hm : h.Percent = 100 ∨ rng.Float64.1 * 100 < h.Percent) :
    ServeHTTP h 0 pri alt sched (World.init i rng) =
      run (interleave sched (steps (forwardToPrimary h 2 pri) pri.fault)
            (steps (forwardToAlternate h 1 alt) alt.fault)) (World.dispatched i rng) := by
  rw [ServeHTTP_init, if_pos hm, DuplicateRequest_sampled]
  rfl

/-- The handler on the initial world when the request is not mirrored. -/
theorem ServeHTTP_unmirrored (h : Handler) (i : Inbound) (rng : Rand) (pri alt : Backend)
    (sched : List Bool) (hm : ¬ (h.Percent = 100 ∨ rng.Float64.1 * 100 < h.Percent)) :
    ServeHTTP h 0 pri alt sched (World.init i rng) =
      run ((steps (forwardToPrimary h 0 pri) pri.fault).map (Prod.mk Task.primary))
        (World.sampled i rng) := by
  rw [ServeHTTP_init, if_neg hm]

/-! ## The sampling decision -/

/-- No step touches the random source or the list of started goroutines, and a
step adds exactly itself to the trace. -/
theorem exec_frame (e : Task × Step) (w : World) :
    (exec e w).rng = w.rng ∧ (exec e w).spawned = w.spawned ∧
      (exec e w).trace = w.trace ++ [e] ∧ (exec e w).reqs.length = w.reqs.length := by
  rcases e with ⟨t, s⟩
  cases s <;> try (simp [exec, effect]; done)
  case SetHost q host => cases hq : w.reqs[q]? <;> simp [exec, effect, hq]
  case ConnWrite addr q =>
    cases hq : w.reqs[q]? with
    | none => simp [exec, effect, hq]
    | some r =>
      have hf := readBody_frame w r.Body
      simp [exec, effect, hq, World.ReadAll, hf.1, hf.2.2.2.1, hf.2.2.2.2.2.1, hf.2.2.2.2.2.2]

theorem run_frame (L : List (Task × Step)) :
    ∀ w : World, (run L w).rng = w.rng ∧ (run L w).spawned = w.spawned ∧
      (run L w).trace = w.trace ++ L ∧ (run L w).reqs.length = w.reqs.length := by
  induction L with
  | nil => intro w; simp [run]
  | cons e L ih =>
    intro w
    have h1 := exec_frame e w
    have h2 := ih (exec e w)
    simp only [run, List.foldl_cons] at h2 ⊢
    refine ⟨h2.1.trans h1.1, h2.2.1.trans h1.2.1, ?_, h2.2.2.2.trans h1.2.2.2⟩
    rw [h2.2.2.1, h1.2.2.1, List.append_assoc]; rfl

/-- The random source, the started goroutines and the number of request structs
after `ServeHTTP` on the initial world. -/
theorem ServeHTTP_sampling (h : Handler) (i : Inbound) (rng : Rand) (pri alt : Backend)
    (sched : List Bool) :
    (ServeHTTP h 0 pri alt sched (World.init i rng)).rng = rng.Float64.2 ∧
    (ServeHTTP h 0 pri alt sched (World.init i rng)).spawned =
      (if h.Percent = 100 ∨ rng.Float64.1 * 100 < h.Percent then [1] else []) ∧
    (ServeHTTP h 0 pri alt sched (World.init i rng)).reqs.length =
      (if h.Percent = 100 ∨ rng.Float64.1 * 100 < h.Percent then 3 else 1) := by
  by_cases hm : h.Percent = 100 ∨ rng.Float64.1 * 100 < h.Percent
  · rw [ServeHTTP_mirrored h i rng pri alt sched hm, if_pos hm, if_pos hm]
    have := run_frame (interleave sched (steps (forwardToPrimary h 2 pri) pri.fault)
      (steps (forwardToAlternate h 1 alt) alt.fault)) (World.dispatched i rng)
    exact ⟨this.1, this.2.1, this.2.2.2⟩
  · rw [ServeHTTP_unmirrored h i rng pri alt sched hm, if_neg hm, if_neg hm]
    have := run_frame ((steps (forwardToPrimary h 0 pri) pri.fault).map (Prod.mk Task.primary))
      (World.sampled i rng)
    exact ⟨this.1, this.2.1, this.2.2.2⟩

/-- The steps of the started goroutine in a mirrored run are those of
`forwardToAlternate` on `request1`, all of them, in order. -/
theorem ServeHTTP_shadow_calls (h : Handler) (i : Inbound) (rng : Rand) (pri alt : Backend)
    (sched : List Bool) (hm : h.Percent = 100 ∨ rng.Float64.1 * 100 < h.Percent) :
    (ServeHTTP h 0 pri alt sched (World.init i rng)).calls Task.shadow =
      steps (forwardToAlternate h 1 alt) alt.fault := by
  rw [ServeHTTP_mirrored h i rng pri alt sched hm]
  have := run_frame (interleave sched (steps (forwardToPrimary h 2 pri) pri.fault)
      (steps (forwardToAlternate h 1 alt) alt.fault)) (World.dispatched i rng)
  simp only [World.calls, this.2.2.1, List.filter_append, interleave_filter_shadow]
  simp [World.dispatched, Function.comp_def]

/-- C4. With `Percent = 100`, whatever the random source returns, `ServeHTTP`
duplicates the request (two more request structs), starts one goroutine on
`request1`, and that goroutine performs the steps of `forwardToAlternate`. -/
theorem ServeHTTP_percent_100 (h : Handler) (i : Inbound) (rng : Rand) (pri alt : Backend)
    (sched : List Bool) (hp : h.Percent = 100) :
    (ServeHTTP h 0 pri alt sched (World.init i rng)).spawned = [1] ∧
    (ServeHTTP h 0 pri alt sched (World.init i rng)).reqs.length = 3 ∧
    (ServeHTTP h 0 pri alt sched (World.init i rng)).calls Task.shadow =
      steps (forwardToAlternate h 1 alt) alt.fault := by
  have hm : h.Percent = 100 ∨ rng.Float64.1 * 100 < h.Percent := Or.inl hp
  have hs := ServeHTTP_sampling h i rng pri alt sched
  rw [if_pos hm, if_pos hm] at hs
  exact ⟨hs.2.1, hs.2.2, ServeHTTP_shadow_calls h i rng pri alt sched hm⟩

theorem ServeHTTP_percent_100_witness :
    exampleHandler.Percent = 100 ∧
    (ServeHTTP exampleHandler 0 examplePrimary exampleAlternate [true, false]
      (World.init exampleInbound exampleRand)).spawned = [1] ∧
    (ServeHTTP exampleHandler 0 examplePrimary exampleAlternate [true, false]
      (World.init exampleInbound exampleRand)).reqs.length = 3 ∧
    (ServeHTTP exampleHandler 0 examplePrimary exampleAlternate [true, false]
      (World.init exampleInbound exampleRand)).calls Task.shadow =
      steps (forwardToAlternate exampleHandler 1 exampleAlternate) exampleAlternate.fault :=
  ⟨rfl, ServeHTTP_percent_100 exampleHandler exampleInbound exampleRand examplePrimary
    exampleAlternate [true, false] rfl⟩

/-- C5. With `Percent` other than 100 and a draw `r` in `[0, 1)`, `ServeHTTP`
starts the goroutine of the alternate path exactly when `100 * r < Percent`,
and starts none otherwise; so it never does when `Percent ≤ 0` and always does
when `Percent > 100`. -/
theorem ServeHTTP_percent_draw (h : Handler) (i : Inbound) (rng : Rand) (pri alt : Backend)
    (sched : List Bool) (hp : h.Percent ≠ 100)
    (hr : 0 ≤ rng.Float64.1 ∧ rng.Float64.1 < 1) :
    ((ServeHTTP h 0 pri alt sched (World.init i rng)).spawned = [1] ↔
      100 * rng.Float64.1 < h.Percent) ∧
    ((ServeHTTP h 0 pri alt sched (World.init i rng)).spawned = [] ↔
      ¬ 100 * rng.Float64.1 < h.Percent) ∧
    (h.Percent ≤ 0 → (ServeHTTP h 0 pri alt sched (World.init i rng)).spawned = []) ∧
    (100 < h.Percent → (ServeHTTP h 0 pri alt sched (World.init i rng)).spawned = [1]) := by
  have hs := (ServeHTTP_sampling h i rng pri alt sched).2.1
  have hiff : (h.Percent = 100 ∨ rng.Float64.1 * 100 < h.Percent) ↔
      100 * rng.Float64.1 < h.Percent := by
    rw [mul_comm]; exact ⟨fun hm => hm.resolve_left hp, Or.inr⟩
  rw [hs]
  by_cases hlt : 100 * rng.Float64.1 < h.Percent
  · have hm := hiff.2 hlt
    simp only [if_pos hm, hlt, true_iff, not_true_eq_false, iff_false, implies_true, and_true,
      true_and]
    refine ⟨by simp, ?_⟩
    intro hle
    linarith [hr.1]
  · have hm : ¬ (h.Percent = 100 ∨ rng.Float64.1 * 100 < h.Percent) := fun hm => hlt (hiff.1 hm)
    simp only [if_neg hm, hlt, not_false_eq_true, iff_true, iff_false, implies_true, true_and]
    refine ⟨by simp, ?_⟩
    intro hgt
    exact absurd (by linarith [hr.2]) hlt

theorem ServeHTTP_percent_draw_witness :
    exampleHandlerHalf.Percent ≠ 100 ∧
    (0 ≤ exampleRand.Float64.1 ∧ exampleRand.Float64.1 < 1) ∧
    ((ServeHTTP exampleHandlerHalf 0 examplePrimary exampleAlternate []
        (World.init exampleInbound exampleRand)).spawned = [1] ↔
      100 * exampleRand.Float64.1 < exampleHandlerHalf.Percent) ∧
    ((ServeHTTP exampleHandlerHalf 0 examplePrimary exampleAlternate []
        (World.init exampleInbound exampleRand)).spawned = [] ↔
      ¬ 100 * exampleRand.Float64.1 < exampleHandlerHalf.Percent) ∧
    (exampleHandlerHalf.Percent ≤ 0 →
      (ServeHTTP exampleHandlerHalf 0 examplePrimary exampleAlternate []
        (World.init exampleInbound exampleRand)).spawned = []) ∧
    (100 < exampleHandlerHalf.Percent →
      (ServeHTTP exampleHandlerHalf 0 examplePrimary exampleAlternate []
        (World.init exampleInbound exampleRand)).spawned = [1]) :=
  ⟨by decide, by simp [exampleRand, Rand.Float64],
    ServeHTTP_percent_draw exampleHandlerHalf exampleInbound exampleRand examplePrimary
      exampleAlternate [] (by decide) (by simp [exampleRand, Rand.Float64])⟩

/-- C10, as the code behaves. For every `Percent`, 100 included, `ServeHTTP`
calls `Float64` once before it decides: the random source afterwards is the
source advanced by one value. -/
theorem ServeHTTP_draws_once (h : Handler) (i : Inbound) (rng : Rand) (pri alt : Backend)
    (sched : List Bool) :
    (ServeHTTP h 0 pri alt sched (World.init i rng)).rng = rng.Float64.2 ∧
    (ServeHTTP h 0 pri alt sched (World.init i rng)).rng.pos = rng.pos + 1 := by
  have hs := (ServeHTTP_sampling h i rng pri alt sched).1
  exact ⟨hs, by rw [hs]; rfl⟩

/-- C10, counterexample. With `Percent = 100` the random source after the call
is not the source before it: one value has been drawn. -/
theorem ServeHTTP_percent_100_consumes_draw :
    exampleHandler.Percent = 100 ∧
    (ServeHTTP exampleHandler 0 examplePrimary exampleAlternate []
      (World.init exampleInbound exampleRand)).rng.pos ≠
      (World.init exampleInbound exampleRand).rng.pos := by
  refine ⟨rfl, ?_⟩
  rw [(ServeHTTP_sampling exampleHandler exampleInbound exampleRand examplePrimary
    exampleAlternate []).1]
  decide

/-! ## The two goroutines do not interfere -/

/-- Every step of `forwardToAlternate`, wherever a panic is raised, is a
non-public step on `alternativeRequest` only. -/
theorem forwardToAlternate_steps (h : Handler) (a : Nat) (env : Backend)
    (fault : Option (Nat × String)) :
    ∀ s ∈ steps (forwardToAlternate h a env) fault, s.isPublic = false ∧ s.owned a := by
  obtain ⟨rest, hb, hq⟩ := forwardToAlternate_quiet h a env
  rw [hb]
  refine steps_all (fun s => s.isPublic = false ∧ s.owned a) (recoverAlternate h) (fun _ => rfl)
    ?_ rest (fun i hi => Instr.quiet_mono _ _ (fun s hs hb => hs ⟨hb.1, hb.2.1⟩) i (hq i hi)) fault
  intro p s hs
  simp only [recoverAlternate] at hs
  split_ifs at hs <;> simp at hs
  subst hs
  exact ⟨rfl, trivial⟩

/-- Every step of the forward to the primary, wherever a panic is raised,
touches no request struct but `productionRequest`. -/
theorem forwardToPrimary_steps (h : Handler) (p : Nat) (env : Backend)
    (fault : Option (Nat × String)) :
    ∀ s ∈ steps (forwardToPrimary h p env) fault, s.owned p := by
  obtain ⟨rest, hb, hq⟩ := forwardToPrimary_quiet h p env
  rw [hb]
  refine steps_all (fun s => s.owned p) (recoverServeHTTP h) (fun _ => rfl) ?_ rest hq fault
  intro r s hs
  simp only [recoverServeHTTP] at hs
  split_ifs at hs <;> simp at hs
  subst hs
  trivial

/-- In an interleaved run from a world where the two requests wrap different
buffers, the serving goroutine's view is the one it has when running alone. -/
theorem interleaved_primaryView (h : Handler) (pri alt : Backend) (sched : List Bool)
    (p b q c : Nat) (hqp : q ≠ p) (hcb : c ≠ b) (W : World)
    (hp : W.holds p b) (hq : W.holds q c) :
    (run (interleave sched (steps (forwardToPrimary h p pri) pri.fault)
        (steps (forwardToAlternate h q alt) alt.fault)) W).primaryView p b =
    (run ((steps (forwardToPrimary h p pri) pri.fault).map (Prod.mk Task.primary))
      W).primaryView p b := by
  have key := run_view (World.primaryView p b) (fun w => w.holds p b ∧ w.holds q c) Task.primary
    (interleave sched (steps (forwardToPrimary h p pri) pri.fault)
      (steps (forwardToAlternate h q alt) alt.fault))
    (fun e _ w hw => ⟨holds_exec p b e w hw.1, holds_exec q c e w hw.2⟩)
    (by
      intro e he hne w hw
      rcases interleave_mem sched _ _ e he with ⟨ht, _⟩ | ⟨ht, hs⟩
      · exact absurd ht hne
      · have hprop := forwardToAlternate_steps h q alt alt.fault e.2 hs
        rcases e with ⟨t, s⟩
        simp only at ht; subst ht
        exact primaryView_shadow_step p b q c s hprop.1 hprop.2 hqp hcb w hw.2)
    (by
      intro e he ht w w' hw hw' hv
      rcases interleave_mem sched _ _ e he with ⟨_, hs⟩ | ⟨ht', _⟩
      · have hprop := forwardToPrimary_steps h p pri pri.fault e.2 hs
        rcases e with ⟨t, s⟩
        simp only at ht; subst ht
        exact primaryView_primary_step p b s hprop w w' hw.1 hw'.1 hv
      · rw [ht] at ht'; cases ht')
    W W ⟨hp, hq⟩ ⟨hp, hq⟩ rfl
  rw [key, interleave_filter_primary]

/-- In an interleaved run from a world where the two requests wrap different
buffers, the started goroutine's view is the one it has when running alone. -/
theorem interleaved_shadowView (h : Handler) (pri alt : Backend) (sched : List Bool)
    (p b q c : Nat) (hqp : p ≠ q) (hcb : b ≠ c) (W : World)
    (hp : W.holds p b) (hq : W.holds q c) :
    (run (interleave sched (steps (forwardToPrimary h p pri) pri.fault)
        (steps (forwardToAlternate h q alt) alt.fault)) W).shadowView q c =
    (run ((steps (forwardToAlternate h q alt) alt.fault).map (Prod.mk Task.shadow))
      W).shadowView q c := by
  have key := run_view (World.shadowView q c) (fun w => w.holds p b ∧ w.holds q c) Task.shadow
    (interleave sched (steps (forwardToPrimary h p pri) pri.fault)
      (steps (forwardToAlternate h q alt) alt.fault))
    (fun e _ w hw => ⟨holds_exec p b e w hw.1, holds_exec q c e w hw.2⟩)
    (by
      intro e he hne w hw
      rcases interleave_mem sched _ _ e he with ⟨ht, hs⟩ | ⟨ht, _⟩
      · have hprop := forwardToPrimary_steps h p pri pri.fault e.2 hs
        rcases e with ⟨t, s⟩
        simp only at ht; subst ht
        exact shadowView_primary_step p b q c s hprop hqp hcb w hw.1
      · exact absurd ht hne)
    (by
      intro e he ht w w' hw hw' hv
      rcases interleave_mem sched _ _ e he with ⟨ht', _⟩ | ⟨_, hs⟩
      · rw [ht] at ht'; cases ht'
      · have hprop := forwardToAlternate_steps h q alt alt.fault e.2 hs
        rcases e with ⟨t, s⟩
        simp only at ht; subst ht
        exact shadowView_shadow_step q c s hprop.2 w w' hw.2 hw'.2 hv)
    W W ⟨hp, hq⟩ ⟨hp, hq⟩ rfl
  rw [key, interleave_filter_shadow]

theorem dispatched_holds (i : Inbound) (rng : Rand) :
    (World.dispatched i rng).holds 2 0 ∧ (World.dispatched i rng).holds 1 1 :=
  ⟨⟨_, rfl, rfl⟩, ⟨_, rfl, rfl⟩⟩

/-- Whatever the alternate backend does and however the goroutines are
scheduled, what the client and the primary path observe of `ServeHTTP` is what
they observe when the serving goroutine runs alone. -/
theorem ServeHTTP_observables (h : Handler) (i : Inbound) (rng : Rand) (pri alt : Backend)
    (sched : List Bool) :
    (ServeHTTP h 0 pri alt sched (World.init i rng)).observables =
      (primaryAlone h i rng pri).observables := by
  by_cases hm : h.Percent = 100 ∨ rng.Float64.1 * 100 < h.Percent
  · rw [ServeHTTP_mirrored h i rng pri alt sched hm, primaryAlone, if_pos hm]
    have hv := interleaved_primaryView h pri alt sched 2 0 1 1 (by decide) (by decide)
      (World.dispatched i rng) (dispatched_holds i rng).1 (dispatched_holds i rng).2
    simp only [World.primaryView, Prod.mk.injEq] at hv
    simp only [World.observables, hv.1, hv.2.1, hv.2.2.1]
  · rw [ServeHTTP_unmirrored h i rng pri alt sched hm, primaryAlone, if_neg hm]

/-- A filter that keeps visible entries only sees the visible trace. -/
theorem filter_of_visible (f : Step → Bool) (hf : ∀ t s, f s = true → visible (t, s) = true)
    (T : List (Task × Step)) :
    (T.map Prod.snd).filter f = ((T.filter visible).map Prod.snd).filter f := by
  induction T with
  | nil => rfl
  | cons e T ih =>
    rcases e with ⟨t, s⟩
    by_cases hv : visible (t, s) = true
    · by_cases hfs : f s = true <;> simp [hv, hfs, ih]
    · have hfs : ¬ f s = true := fun hfs => hv (hf t s hfs)
      simp [hv, hfs, ih]

/-- Two worlds with the same observables agree on the response writer, the
calls made on it, the metrics of `HttpStatsPri` and `HttpStats`, the steps and
the written requests of the serving goroutine, and the crashes. -/
theorem observables_project (w w' : World) (h : w.observables = w'.observables) :
    w.client = w'.client ∧ w.writerCalls = w'.writerCalls ∧
    w.stats .HttpStatsPri = w'.stats .HttpStatsPri ∧
    w.stats .HttpStats = w'.stats .HttpStats ∧
    w.calls .primary = w'.calls .primary ∧ w.written .primary = w'.written .primary ∧
    w.crashes = w'.crashes := by
  simp only [World.observables, Prod.mk.injEq] at h
  obtain ⟨hc, ht, hw⟩ := h
  refine ⟨hc, ?_, ?_, ?_, ?_, ?_, ?_⟩
  · simp only [World.writerCalls]
    rw [filter_of_visible _ _ w.trace, filter_of_visible _ _ w'.trace, ht]
    all_goals intro t s hs; cases s <;> simp_all [visible, Step.isPublic, Step.isWriterCall]
  · simp only [World.stats]
    rw [filter_of_visible _ _ w.trace, filter_of_visible _ _ w'.trace, ht]
    all_goals intro t s hs; cases s <;> simp_all [visible, Step.isPublic, Step.isStat]
  · simp only [World.stats]
    rw [filter_of_visible _ _ w.trace, filter_of_visible _ _ w'.trace, ht]
    all_goals intro t s hs; cases s <;> simp_all [visible, Step.isPublic, Step.isStat]
  · have hpv : ∀ T : List (Task × Step),
        T.filter (fun e => decide (e.1 = Task.primary)) =
          (T.filter visible).filter (fun e => decide (e.1 = Task.primary)) := by
      intro T
      rw [List.filter_filter]
      congr 1
      funext e
      by_cases he : e.1 = Task.primary <;> simp [visible, he]
    simp only [World.calls]
    rw [hpv w.trace, hpv w'.trace, ht]
  · simp only [World.written, hw]
  · simp only [World.crashes]
    rw [filter_of_visible _ _ w.trace, filter_of_visible _ _ w'.trace, ht]
    all_goals intro t s hs; cases s <;> simp_all [visible, Step.isPublic, Step.isCrash]

/-- C7. For every request, configuration and primary-backend behaviour, and for
any two behaviours of the alternate backend (dial, write or read failure, any
response, a panic anywhere) under any two schedules, `ServeHTTP` leaves the same
response writer (status, headers, body, or nothing written), the same calls on
it, the same `HttpStatsPri` and `HttpStats` metrics, the same steps and written
requests of the serving goroutine, and the same crashes. -/
theorem ServeHTTP_shadow_noninterference (h : Handler) (i : Inbound) (rng : Rand)
    (pri alt alt' : Backend) (sched sched' : List Bool) :
    (ServeHTTP h 0 pri alt sched (World.init i rng)).client =
      (ServeHTTP h 0 pri alt' sched' (World.init i rng)).client ∧
    (ServeHTTP h 0 pri alt sched (World.init i rng)).writerCalls =
      (ServeHTTP h 0 pri alt' sched' (World.init i rng)).writerCalls ∧
    (ServeHTTP h 0 pri alt sched (World.init i rng)).stats .HttpStatsPri =
      (ServeHTTP h 0 pri alt' sched' (World.init i rng)).stats .HttpStatsPri ∧
    (ServeHTTP h 0 pri alt sched (World.init i rng)).stats .HttpStats =
      (ServeHTTP h 0 pri alt' sched' (World.init i rng)).stats .HttpStats ∧
    (ServeHTTP h 0 pri alt sched (World.init i rng)).calls .primary =
      (ServeHTTP h 0 pri alt' sched' (World.init i rng)).calls .primary ∧
    (ServeHTTP h 0 pri alt sched (World.init i rng)).written .primary =
      (ServeHTTP h 0 pri alt' sched' (World.init i rng)).written .primary ∧
    (ServeHTTP h 0 pri alt sched (World.init i rng)).crashes =
      (ServeHTTP h 0 pri alt' sched' (World.init i rng)).crashes :=
  observables_project _ _
    ((ServeHTTP_observables h i rng pri alt sched).trans
      (ServeHTTP_observables h i rng pri alt' sched').symm)

/-! ## The forward to the primary, step by step -/

theorem stepsOf_append (a b : List Instr) : stepsOf (a ++ b) = stepsOf a ++ stepsOf b := by
  induction a with
  | nil => rfl
  | cons i is ih => cases i <;> simp [stepsOf, ih]

theorem defersOf_append (a b : List Instr) : defersOf (a ++ b) = defersOf b ++ defersOf a := by
  induction a with
  | nil => simp [defersOf]
  | cons i is ih => cases i <;> simp [defersOf, ih]

theorem stepsOf_map_step {α : Type} (f : α → Step) (l : List α) :
    stepsOf (l.map (fun x => Instr.step (f x))) = l.map f := by
  induction l with
  | nil => rfl
  | cons x xs ih => simp [stepsOf, ih]

theorem defersOf_map_step {α : Type} (f : α → Step) (l : List α) :
    defersOf (l.map (fun x => Instr.step (f x))) = [] := by
  induction l with
  | nil => rfl
  | cons x xs ih => simp [defersOf, ih]

/-- A body in which no panic is raised, none of whose steps panics by itself,
performs its steps, then its deferred calls, last registered first. -/
theorem runBody_none (is : List Instr) (hnp : ∀ s ∈ stepsOf is, s.panics = none) :
    ∀ ds : List Deferred, runBody is none ds =
      (stepsOf is ++ (unwind (defersOf is ++ ds) none).1, (unwind (defersOf is ++ ds) none).2) := by
  induction is with
  | nil => intro ds; simp [runBody, stepsOf, defersOf]
  | cons i is ih =>
    intro ds
    cases i with
    | defer d => simp [runBody, stepsOf, defersOf, ih (by simpa [stepsOf] using hnp)]
    | step s =>
      have hp : s.panics = none := hnp s (by simp [stepsOf])
      have hnp' : ∀ x ∈ stepsOf is, x.panics = none :=
        fun x hx => hnp x (by simp [stepsOf, hx])
      simp [runBody, hp, stepsOf, defersOf, ih hnp']

/-- The response writer after a run is the writer with the steps applied. -/
theorem run_client (L : List (Task × Step)) :
    ∀ w : World, (run L w).client = L.foldl (fun c e => c.apply e.2) w.client := by
  induction L with
  | nil => intro w; rfl
  | cons e L ih =>
    intro w
    have h1 : (exec e w).client = w.client.apply e.2 := by
      rcases e with ⟨t, s⟩
      cases s <;> try (simp [exec, effect, ResponseWriter.apply]; done)
      case SetHost q host => cases hq : w.reqs[q]? <;> simp [exec, effect, hq, ResponseWriter.apply]
      case ConnWrite addr q =>
        cases hq : w.reqs[q]? with
        | none => simp [exec, effect, hq, ResponseWriter.apply]
        | some r =>
          simp [exec, effect, hq, World.ReadAll, (readBody_frame w r.Body).2.2.1,
            ResponseWriter.apply]
    simp only [run, List.foldl_cons] at ih ⊢
    rw [ih, h1]

/-- The serving goroutine alone: the response writer and the trace, from the
steps of the forward to the primary on `productionRequest`. -/
theorem primaryAlone_run (h : Handler) (i : Inbound) (rng : Rand) (pri : Backend) :
    ∃ p, (primaryAlone h i rng pri).client =
        (steps (forwardToPrimary h p pri) pri.fault).foldl (fun c s => c.apply s)
          ⟨[], none, []⟩ ∧
      (primaryAlone h i rng pri).trace =
        (Task.primary, Step.Increment .HttpStats "req") ::
          (steps (forwardToPrimary h p pri) pri.fault).map (Prod.mk Task.primary) := by
  by_cases hm : h.Percent = 100 ∨ rng.Float64.1 * 100 < h.Percent
  · refine ⟨2, ?_, ?_⟩
    · rw [primaryAlone, if_pos hm, run_client, List.foldl_map]; rfl
    · rw [primaryAlone, if_pos hm, (run_frame _ _).2.2.1]; rfl
  · refine ⟨0, ?_, ?_⟩
    · rw [primaryAlone, if_neg hm, run_client, List.foldl_map]; rfl
    · rw [primaryAlone, if_neg hm, (run_frame _ _).2.2.1]; rfl

/-- Copying the entries of a map with distinct keys into a map that has none of
these keys appends them. -/
theorem header_copy (H : Header) :
    ∀ M : Header, (H.map Prod.fst).Nodup → (∀ k ∈ H.map Prod.fst, k ∉ M.map Prod.fst) →
      H.foldl (fun m kv => Header.set m kv.1 kv.2) M = M ++ H := by
  induction H with
  | nil => intro M _ _; simp
  | cons kv H ih =>
    intro M hnd hdis
    have hk : kv.1 ∉ M.map Prod.fst := hdis kv.1 (by simp)
    have hset : Header.set M kv.1 kv.2 = M ++ [kv] := by
      have : M.any (fun e => e.1 == kv.1) = false := by
        rw [List.any_eq_false]
        intro e he hek
        exact hk (by simp only [List.mem_map]; exact ⟨e, he, by simpa using hek⟩)
      simp [Header.set, this]
    rw [List.foldl_cons, hset, ih (M ++ [kv]) (List.nodup_cons.1 hnd).2]
    · simp
    · intro k hkH hkM
      simp only [List.map_append, List.map_cons, List.map_nil, List.mem_append,
        List.mem_singleton] at hkM
      rcases hkM with hkM | rfl
      · exact hdis k (List.mem_cons_of_mem _ hkH) hkM
      · exact (List.nodup_cons.1 hnd).1 hkH

theorem foldl_apply_SetHeader (H : Header) :
    ∀ c : ResponseWriter,
      (H.map (fun kv => Step.SetHeader kv.1 kv.2)).foldl (fun c s => c.apply s) c =
        { c with header := H.foldl (fun m kv => Header.set m kv.1 kv.2) c.header } := by
  induction H with
  | nil => intro c; rfl
  | cons kv H ih =>
    intro c
    simp only [List.map_cons, List.foldl_cons]
    rw [ih]
    rfl

/-- The steps of the forward to the primary when the backend is dialed, the
request written and the response read without error, the status is one
`WriteHeader` does not panic on, and no panic is raised. -/
theorem forwardToPrimary_steps_ok (h : Handler) (p : Nat) (pri : Backend)
    (hd : pri.dial = none) (hw : pri.write = none)
    (hr : pri.readErr = none ∨ pri.readErr = some .ErrPersistEOF)
    (hv : invalidWriteHeaderCode pri.resp.StatusCode = false) :
    steps (forwardToPrimary h p pri) none =
      [ .Log .info "Forwarding request to primary. Host: %s, URL: %s",
        .NewTiming .HttpStatsPri,
        .DialTimeout h.Target h.ProductionTimeout ] ++
      (if h.ProductionHostRewrite then [.SetHost p h.Target] else []) ++
      [ .ConnWrite h.Target p, .ConnRead h.Target ] ++
      pri.resp.Header.map (fun kv => Step.SetHeader kv.1 kv.2) ++
      [ .WriteHeader pri.resp.StatusCode,
        .Write pri.resp.Body.ReadAll.1,
        .Log .info "Response from primary. Host: %s, Status: %d, URL: %s",
        .Send .HttpStatsPri "latency",
        .Increment .HttpStatsPri (Itoa pri.resp.StatusCode),
        .BodyClose h.Target, .ConnClose h.Target ] := by
  have hc : ¬ (pri.readErr ≠ none ∧ pri.readErr ≠ some ConnErr.ErrPersistEOF) := by
    rcases hr with hr | hr <;> simp [hr]
  have hnp : ∀ s ∈ stepsOf (forwardToPrimary h p pri), s.panics = none := by
    simp only [forwardToPrimary, hd, hw, hc, if_false]
    cases h.ProductionHostRewrite <;>
      simp [stepsOf_append, stepsOf, stepsOf_map_step, Step.panics, hv] <;>
      rintro a (⟨k, v, -, rfl⟩ | rfl | rfl | rfl | rfl | rfl) <;> simp [hv]
  rw [steps, runBody_none _ hnp]
  simp only [forwardToPrimary, hd, hw, hc, if_false]
  cases h.ProductionHostRewrite <;>
    simp [stepsOf_append, defersOf_append, stepsOf, defersOf, stepsOf_map_step,
      defersOf_map_step, unwind, recoverServeHTTP]

/-- C1, as the code behaves. When the primary backend is dialed, the request is
written and a response with status `s`, headers `H` (a map: distinct keys) and
body `b` is read back without error (`ErrPersistEOF` counting as none), the
status `s` is one `WriteHeader` records as the final status (`s = 101` or
`200 ≤ s ≤ 999`), and no panic is raised in the serving goroutine, then,
whatever the alternate backend does and however the goroutines are scheduled,
`ServeHTTP` leaves the response writer with exactly the headers `H`, the status
`s` and the body `b`; the calls on the writer are the header assignments, then
`WriteHeader(s)`, then `Write(b)`; and `HttpStatsPri` receives exactly one
timing `latency` and one increment of the counter `Itoa(s)`. -/
theorem ServeHTTP_primary_success (h : Handler) (i : Inbound) (rng : Rand)
    (pri alt : Backend) (sched : List Bool) (b : List Byte)
    (hd : pri.dial = none) (hw : pri.write = none)
    (hr : pri.readErr = none ∨ pri.readErr = some .ErrPersistEOF)
    (hb : pri.resp.Body.ReadAll = (b, none)) (hf : pri.fault = none)
    (hnd : (pri.resp.Header.map Prod.fst).Nodup)
    (hs : pri.resp.StatusCode = 101 ∨
      (200 ≤ pri.resp.StatusCode ∧ pri.resp.StatusCode ≤ 999)) :
    (ServeHTTP h 0 pri alt sched (World.init i rng)).client =
      { header := pri.resp.Header, status := some pri.resp.StatusCode, body := b } ∧
    (ServeHTTP h 0 pri alt sched (World.init i rng)).writerCalls =
      pri.resp.Header.map (fun kv => Step.SetHeader kv.1 kv.2) ++
        [.WriteHeader pri.resp.StatusCode, .Write b] ∧
    (ServeHTTP h 0 pri alt sched (World.init i rng)).stats .HttpStatsPri =
      [.Send .HttpStatsPri "latency", .Increment .HttpStatsPri (Itoa pri.resp.StatusCode)] := by
  have hinv : invalidWriteHeaderCode pri.resp.StatusCode = false := by
    simp only [invalidWriteHeaderCode, decide_eq_false_iff_not]
    omega
  have hinf : informationalCode pri.resp.StatusCode = false := by
    simp only [informationalCode, decide_eq_false_iff_not]
    omega
  have hobs := observables_project _ _ (ServeHTTP_observables h i rng pri alt sched)
  obtain ⟨p, hc, ht⟩ := primaryAlone_run h i rng pri
  rw [hf, forwardToPrimary_steps_ok h p pri hd hw hr hinv, hb] at hc ht
  have hcopy := header_copy pri.resp.Header [] hnd (by simp)
  refine ⟨hobs.1.trans ?_, hobs.2.1.trans ?_, hobs.2.2.1.trans ?_⟩
  · rw [hc]
    cases h.ProductionHostRewrite <;>
      simp only [List.foldl_append, List.foldl_cons, List.foldl_nil, foldl_apply_SetHeader,
        Bool.false_eq_true, if_true, if_false] <;>
      simp [ResponseWriter.apply, ResponseWriter.WriteHeader, hinv, hinf, hcopy]
  · simp only [World.writerCalls, ht]
    cases h.ProductionHostRewrite <;>
      simp [List.filter_append, List.filter_map, Function.comp_def, Step.isWriterCall]
  · simp only [World.stats, ht]
    cases h.ProductionHostRewrite <;>
      simp [List.filter_append, List.filter_map, Function.comp_def, Step.isStat]

theorem ServeHTTP_primary_success_witness :
    examplePrimary.dial = none ∧ examplePrimary.write = none ∧
    (examplePrimary.readErr = none ∨ examplePrimary.readErr = some .ErrPersistEOF) ∧
    examplePrimary.resp.Body.ReadAll = ([104, 101, 108, 108, 111, 45, 65], none) ∧
    examplePrimary.fault = none ∧ (examplePrimary.resp.Header.map Prod.fst).Nodup ∧
    (examplePrimary.resp.StatusCode = 101 ∨
      (200 ≤ examplePrimary.resp.StatusCode ∧ examplePrimary.resp.StatusCode ≤ 999)) ∧
    (ServeHTTP exampleHandler 0 examplePrimary exampleAlternate [false, true, false]
        (World.init exampleInbound exampleRand)).client =
      { header := [("Content-Type", ["text/plain"]), ("X-Served-By", ["a"])],
        status := some 200, body := [104, 101, 108, 108, 111, 45, 65] } ∧
    (ServeHTTP exampleHandler 0 examplePrimary exampleAlternate [false, true, false]
        (World.init exampleInbound exampleRand)).writerCalls =
      [.SetHeader "Content-Type" ["text/plain"], .SetHeader "X-Served-By" ["a"],
        .WriteHeader 200, .Write [104, 101, 108, 108, 111, 45, 65]] ∧
    (ServeHTTP exampleHandler 0 examplePrimary exampleAlternate [false, true, false]
        (World.init exampleInbound exampleRand)).stats .HttpStatsPri =
      [.Send .HttpStatsPri "latency", .Increment .HttpStatsPri "200"] :=
  ⟨rfl, rfl, Or.inl rfl, rfl, rfl, by decide, Or.inr (by decide),
    ServeHTTP_primary_success exampleHandler exampleInbound exampleRand examplePrimary
      exampleAlternate [false, true, false] _ rfl rfl (Or.inl rfl) rfl rfl (by decide)
      (Or.inr (by decide))⟩

/-- C1, counterexample. A backend that is dialed, is written to and answers
without error, with no runtime panic injected: for status 99 the call
`WriteHeader(99)` panics and the deferred `recover` swallows the panic, so the
writer has the header but no status and no body, and `HttpStatsPri` receives
neither a timing nor an increment; for status 103 `WriteHeader(103)` sends an
informational response and the following `Write` fixes the status 200. -/
theorem ServeHTTP_status_not_relayed :
    (exampleInvalidStatus.dial = none ∧ exampleInvalidStatus.write = none ∧
      exampleInvalidStatus.readErr = none ∧
      exampleInvalidStatus.resp.Body.ReadAll = ([104, 105], none) ∧
      exampleInvalidStatus.fault = none ∧
      (ServeHTTP exampleHandler 0 exampleInvalidStatus exampleAlternate [true, false]
          (World.init exampleInbound exampleRand)).client =
        { header := [("Content-Type", ["text/plain"])], status := none, body := [] } ∧
      (ServeHTTP exampleHandler 0 exampleInvalidStatus exampleAlternate [true, false]
          (World.init exampleInbound exampleRand)).stats .HttpStatsPri = []) ∧
    (exampleInformational.dial = none ∧ exampleInformational.write = none ∧
      exampleInformational.readErr = none ∧
      exampleInformational.resp.Body.ReadAll = ([], none) ∧
      exampleInformational.fault = none ∧
      (ServeHTTP exampleHandler 0 exampleInformational exampleAlternate [true, false]
          (World.init exampleInbound exampleRand)).client =
        { header := [("Link", ["</style.css>; rel=preload"])], status := some 200,
          body := [] }) := by
  decide

theorem Itoa_503 : Itoa StatusServiceUnavailable = "503" := by decide

/-- The steps of the forward to the primary when dialing fails and no panic is
raised. -/
theorem forwardToPrimary_steps_dial_fail (h : Handler) (p : Nat) (pri : Backend) (e : String)
    (hd : pri.dial = some e) :
    steps (forwardToPrimary h p pri) none =
      [ .Log .info "Forwarding request to primary. Host: %s, URL: %s",
        .NewTiming .HttpStatsPri,
        .DialTimeout h.Target h.ProductionTimeout,
        .Log .warn "Failed to connect to primary backend. Host: %s, URL: %s, Error: %v",
        .WriteHeader 503,
        .Increment .HttpStatsPri "503" ] := by
  simp only [steps, forwardToPrimary, hd, Itoa_503]
  simp [runBody, Step.panics, invalidWriteHeaderCode, unwind, recoverServeHTTP,
    StatusServiceUnavailable]

/-- A run without `ConnWrite` writes nothing to a backend. -/
theorem run_wire (L : List (Task × Step)) (hL : ∀ e ∈ L, ∀ a q, e.2 ≠ Step.ConnWrite a q) :
    ∀ w : World, (run L w).wire = w.wire := by
  induction L with
  | nil => intro w; rfl
  | cons e L ih =>
    intro w
    have h1 : (exec e w).wire = w.wire := by
      rcases e with ⟨t, s⟩
      cases s <;> try (simp [exec, effect]; done)
      case SetHost q host => cases hq : w.reqs[q]? <;> simp [exec, effect, hq]
      case ConnWrite addr q => exact absurd rfl (hL _ (List.mem_cons_self _ _) addr q)
    simp only [run, List.foldl_cons] at ih ⊢
    rw [ih (fun x hx => hL x (List.mem_cons_of_mem _ hx)), h1]

/-- C2. When dialing the primary backend fails (and the serving goroutine does
not panic), then, whatever the alternate backend does and however the
goroutines are scheduled, `ServeHTTP` calls
`WriteHeader(503)` and nothing else on the response writer (no header copied,
no body byte), `HttpStatsPri` receives exactly one increment of `503` and no
timing, the serving goroutine dials once, writes no request to a backend and
sends nothing on `HttpStatsAlt`. -/
theorem ServeHTTP_primary_dial_failure (h : Handler) (i : Inbound) (rng : Rand)
    (pri alt : Backend) (sched : List Bool) (e : String)
    (hd : pri.dial = some e) (hf : pri.fault = none) :
    (ServeHTTP h 0 pri alt sched (World.init i rng)).client =
      { header := [], status := some 503, body := [] } ∧
    (ServeHTTP h 0 pri alt sched (World.init i rng)).writerCalls = [.WriteHeader 503] ∧
    (ServeHTTP h 0 pri alt sched (World.init i rng)).stats .HttpStatsPri =
      [.Increment .HttpStatsPri "503"] ∧
    (ServeHTTP h 0 pri alt sched (World.init i rng)).calls .primary =
      [ .Increment .HttpStats "req",
        .Log .info "Forwarding request to primary. Host: %s, URL: %s",
        .NewTiming .HttpStatsPri,
        .DialTimeout h.Target h.ProductionTimeout,
        .Log .warn "Failed to connect to primary backend. Host: %s, URL: %s, Error: %v",
        .WriteHeader 503,
        .Increment .HttpStatsPri "503" ] ∧
    (ServeHTTP h 0 pri alt sched (World.init i rng)).written .primary = [] ∧
    ((ServeHTTP h 0 pri alt sched (World.init i rng)).calls .primary).filter
      (Step.isStat .HttpStatsAlt) = [] := by
  have hobs := observables_project _ _ (ServeHTTP_observables h i rng pri alt sched)
  obtain ⟨p, hc, ht⟩ := primaryAlone_run h i rng pri
  rw [hf, forwardToPrimary_steps_dial_fail h p pri e hd] at hc ht
  have hcalls : (primaryAlone h i rng pri).calls .primary =
      [ .Increment .HttpStats "req",
        .Log .info "Forwarding request to primary. Host: %s, URL: %s",
        .NewTiming .HttpStatsPri,
        .DialTimeout h.Target h.ProductionTimeout,
        .Log .warn "Failed to connect to primary backend. Host: %s, URL: %s, Error: %v",
        .WriteHeader 503,
        .Increment .HttpStatsPri "503" ] := by
    simp [World.calls, ht]
  have hwire : (primaryAlone h i rng pri).wire = [] := by
    unfold primaryAlone
    split_ifs <;>
      · rw [hf, forwardToPrimary_steps_dial_fail h _ pri e hd, run_wire]
        · rfl
        · intro x hx a q
          simp only [List.map_cons, List.map_nil, List.mem_cons, List.mem_singleton,
            List.not_mem_nil, or_false] at hx
          rcases hx with rfl | rfl | rfl | rfl | rfl | rfl <;> simp
  refine ⟨hobs.1.trans ?_, hobs.2.1.trans ?_, hobs.2.2.1.trans ?_, hobs.2.2.2.2.1.trans hcalls,
    hobs.2.2.2.2.2.1.trans ?_, ?_⟩
  · rw [hc]
    simp [ResponseWriter.apply, ResponseWriter.WriteHeader, invalidWriteHeaderCode,
      informationalCode]
  · simp [World.writerCalls, ht, Step.isWriterCall]
  · simp [World.stats, ht, Step.isStat]
  · simp [World.written, hwire]
  · rw [hobs.2.2.2.2.1.trans hcalls]; simp [Step.isStat]

theorem ServeHTTP_primary_dial_failure_witness :
    exampleDown.dial = some "connection refused" ∧ exampleDown.fault = none ∧
    (ServeHTTP exampleHandler 0 exampleDown exampleAlternate [false, false, true]
        (World.init exampleInbound exampleRand)).client =
      { header := [], status := some 503, body := [] } ∧
    (ServeHTTP exampleHandler 0 exampleDown exampleAlternate [false, false, true]
        (World.init exampleInbound exampleRand)).writerCalls = [.WriteHeader 503] ∧
    (ServeHTTP exampleHandler 0 exampleDown exampleAlternate [false, false, true]
        (World.init exampleInbound exampleRand)).stats .HttpStatsPri =
      [.Increment .HttpStatsPri "503"] ∧
    (ServeHTTP exampleHandler 0 exampleDown exampleAlternate [false, false, true]
        (World.init exampleInbound exampleRand)).calls .primary =
      [ .Increment .HttpStats "req",
        .Log .info "Forwarding request to primary. Host: %s, URL: %s",
        .NewTiming .HttpStatsPri,
        .DialTimeout "localhost:8080" 3,
        .Log .warn "Failed to connect to primary backend. Host: %s, URL: %s, Error: %v",
        .WriteHeader 503,
        .Increment .HttpStatsPri "503" ] ∧
    (ServeHTTP exampleHandler 0 exampleDown exampleAlternate [false, false, true]
        (World.init exampleInbound exampleRand)).written .primary = [] ∧
    ((ServeHTTP exampleHandler 0 exampleDown exampleAlternate [false, false, true]
        (World.init exampleInbound exampleRand)).calls .primary).filter
      (Step.isStat .HttpStatsAlt) = [] :=
  ⟨rfl, rfl, ServeHTTP_primary_dial_failure exampleHandler exampleInbound exampleRand
    exampleDown exampleAlternate [false, false, true] _ rfl rfl⟩

/-! ## The Host of the requests written -/

theorem hostSafe_neutral (p : Nat) (addr : String) (rewrite ready : Bool) (N L : List Step)
    (hN : ∀ s ∈ N, s.neutral) :
    hostSafe p addr rewrite ready (N ++ L) ↔ hostSafe p addr rewrite ready L := by
  induction N with
  | nil => rfl
  | cons s N ih =>
    have hs := hN s (List.mem_cons_self _ _)
    have ih' := ih (fun x hx => hN x (List.mem_cons_of_mem _ hx))
    cases s <;> first
      | exact False.elim hs
      | simpa [hostSafe, Step.hostOk, Step.settles] using ih'

theorem hostSafe_of_neutral (p : Nat) (addr : String) (rewrite ready : Bool) (N : List Step)
    (hN : ∀ s ∈ N, s.neutral) : hostSafe p addr rewrite ready N := by
  have := (hostSafe_neutral p addr rewrite ready N [] hN).2 trivial
  simpa using this

/-- The steps of deferred calls that only perform neutral steps are neutral. -/
theorem unwind_neutral (ds : List Deferred) (hds : ∀ d ∈ ds, ∀ r, ∀ s ∈ (d r).1, s.neutral) :
    ∀ r, ∀ s ∈ (unwind ds r).1, s.neutral := by
  induction ds with
  | nil => intro r s hs; simp [unwind] at hs
  | cons d ds ih =>
    intro r s hs
    simp only [unwind, List.mem_append] at hs
    rcases hs with hs | hs
    · exact hds d (List.mem_cons_self _ _) r s hs
    · exact ih (fun x hx => hds x (List.mem_cons_of_mem _ hx)) _ s hs

/-- If the whole body is host-safe and its deferred calls are neutral, the steps
performed are host-safe wherever a panic cuts the body short. -/
theorem runBody_hostSafe (p : Nat) (addr : String) (rewrite : Bool) :
    ∀ (is : List Instr) (ready : Bool) (fault : Option (Nat × String)) (ds : List Deferred),
      hostSafe p addr rewrite ready (stepsOf is) →
      (∀ d, Instr.defer d ∈ is → ∀ r, ∀ s ∈ (d r).1, s.neutral) →
      (∀ d ∈ ds, ∀ r, ∀ s ∈ (d r).1, s.neutral) →
      hostSafe p addr rewrite ready (runBody is fault ds).1 := by
  intro is
  induction is with
  | nil =>
    intro ready fault ds _ _ hds
    exact hostSafe_of_neutral _ _ _ _ _ (unwind_neutral ds hds none)
  | cons i is ih =>
    intro ready fault ds hsafe his hds
    have his' : ∀ d, Instr.defer d ∈ is → ∀ r, ∀ s ∈ (d r).1, s.neutral :=
      fun d hd => his d (List.mem_cons_of_mem _ hd)
    cases i with
    | defer d =>
      refine ih ready fault (d :: ds) hsafe his' ?_
      intro x hx
      rcases List.mem_cons.1 hx with rfl | hx
      · exact his x (List.mem_cons_self _ _)
      · exact hds x hx
    | step s =>
      have hs : s.hostOk p addr rewrite ready ∧
          hostSafe p addr rewrite (s.settles ready) (stepsOf is) := hsafe
      rcases fault with _ | ⟨n, v⟩
      · cases hp : s.panics with
        | none =>
          simp only [runBody, hp]
          exact ⟨hs.1, ih _ none ds hs.2 his' hds⟩
        | some pv =>
          simp only [runBody, hp]
          exact hostSafe_of_neutral _ _ _ _ _ (unwind_neutral ds hds (some pv))
      · cases n with
        | zero => exact hostSafe_of_neutral _ _ _ _ _ (unwind_neutral ds hds (some v))
        | succ n =>
          cases hp : s.panics with
          | none =>
            simp only [runBody, hp]
            exact ⟨hs.1, ih _ (some (n, v)) ds hs.2 his' hds⟩
          | some pv =>
            simp only [runBody, hp]
            exact hostSafe_of_neutral _ _ _ _ _ (unwind_neutral ds hds (some pv))

theorem hostSafe_map_SetHeader (p : Nat) (addr : String) (rewrite ready : Bool) (H : Header)
    (L : List Step) :
    hostSafe p addr rewrite ready (H.map (fun kv => Step.SetHeader kv.1 kv.2) ++ L) ↔
      hostSafe p addr rewrite ready L := by
  refine hostSafe_neutral p addr rewrite ready _ L ?_
  intro s hs
  obtain ⟨kv, _, rfl⟩ := List.mem_map.1 hs
  trivial

/-- Deferred calls of a body perform neutral steps only. -/
theorem forwardToPrimary_defers (h : Handler) (p : Nat) (env : Backend) :
    ∀ d, Instr.defer d ∈ forwardToPrimary h p env → ∀ r, ∀ s ∈ (d r).1, s.neutral := by
  rcases env with ⟨dial, write, readErr, resp, fault'⟩
  intro d hd r s hs
  have hcases : d = recoverServeHTTP h ∨ d = (fun r => ([Step.ConnClose h.Target], r)) ∨
      d = (fun r => ([Step.BodyClose h.Target], r)) := by
    by_cases hc : readErr ≠ none ∧ readErr ≠ some ConnErr.ErrPersistEOF <;>
      cases dial <;> cases write <;> cases hR : h.ProductionHostRewrite <;>
      simp [forwardToPrimary, hc, hR] at hd <;> tauto
  rcases hcases with rfl | rfl | rfl
  · simp only [recoverServeHTTP] at hs
    split_ifs at hs <;> simp at hs
    subst hs; trivial
  · simp at hs; subst hs; trivial
  · simp at hs; subst hs; trivial

set_option maxHeartbeats 2000000 in
/-- The whole body of the forward to the primary is host-safe. -/
theorem forwardToPrimary_body_hostSafe (h : Handler) (p : Nat) (env : Backend) :
    hostSafe p h.Target h.ProductionHostRewrite (!h.ProductionHostRewrite)
      (stepsOf (forwardToPrimary h p env)) := by
  rcases env with ⟨dial, write, readErr, resp, fault'⟩
  by_cases hc : readErr ≠ none ∧ readErr ≠ some ConnErr.ErrPersistEOF <;>
    cases dial <;> cases write <;> cases hR : h.ProductionHostRewrite <;>
    simp [forwardToPrimary, hc, hR, stepsOf, stepsOf_append, stepsOf_map_step,
      hostSafe, hostSafe_map_SetHeader, Step.hostOk, Step.settles]

/-- The steps of the forward to the primary are host-safe for `Target` and
`ProductionHostRewrite`, wherever a panic is raised. -/
theorem forwardToPrimary_hostSafe (h : Handler) (p : Nat) (env : Backend)
    (fault : Option (Nat × String)) :
    hostSafe p h.Target h.ProductionHostRewrite (!h.ProductionHostRewrite)
      (steps (forwardToPrimary h p env) fault) := by
  obtain ⟨rest, hb, -⟩ := forwardToPrimary_quiet h p env
  have h1 := forwardToPrimary_body_hostSafe h p env
  have h2 := forwardToPrimary_defers h p env
  rw [hb] at h1 h2 ⊢
  rw [steps_recovered _ (fun _ => rfl)]
  refine runBody_hostSafe p h.Target h.ProductionHostRewrite rest _ fault _ h1
    (fun d hd => h2 d (List.mem_cons_of_mem _ hd)) ?_
  intro d hd
  exact h2 d (by simp only [List.nil_append, List.mem_singleton] at hd; rw [hd]; simp)

theorem forwardToAlternate_defers (h : Handler) (a : Nat) (env : Backend) :
    ∀ d, Instr.defer d ∈ forwardToAlternate h a env → ∀ r, ∀ s ∈ (d r).1, s.neutral := by
  rcases env with ⟨dial, write, readErr, resp, fault'⟩
  intro d hd r s hs
  have hcases : d = recoverAlternate h ∨ d = (fun r => ([Step.ConnClose h.Alternative], r)) ∨
      d = (fun r => ([Step.BodyClose h.Alternative], r)) := by
    by_cases hc : readErr ≠ none ∧ readErr ≠ some ConnErr.ErrPersistEOF <;>
      cases dial <;> cases write <;> cases hR : h.AlternateHostRewrite <;>
      cases hD : h.Debug <;>
      simp [forwardToAlternate, hc, hR, hD] at hd <;> tauto
  rcases hcases with rfl | rfl | rfl
  · simp only [recoverAlternate] at hs
    split_ifs at hs <;> simp at hs
    subst hs; trivial
  · simp at hs; subst hs; trivial
  · simp at hs; subst hs; trivial

set_option maxHeartbeats 2000000 in
/-- The whole body of `forwardToAlternate` is host-safe. -/
theorem forwardToAlternate_body_hostSafe (h : Handler) (a : Nat) (env : Backend) :
    hostSafe a h.Alternative h.AlternateHostRewrite (!h.AlternateHostRewrite)
      (stepsOf (forwardToAlternate h a env)) := by
  rcases env with ⟨dial, write, readErr, resp, fault'⟩
  by_cases hc : readErr ≠ none ∧ readErr ≠ some ConnErr.ErrPersistEOF <;>
    cases dial <;> cases write <;> cases hR : h.AlternateHostRewrite <;>
    cases hD : h.Debug <;>
    simp [forwardToAlternate, hc, hR, hD, stepsOf, stepsOf_append, hostSafe, Step.hostOk,
      Step.settles]

/-- The steps of `forwardToAlternate` are host-safe for `Alternative` and
`AlternateHostRewrite`, wherever a panic is raised. -/
theorem forwardToAlternate_hostSafe (h : Handler) (a : Nat) (env : Backend)
    (fault : Option (Nat × String)) :
    hostSafe a h.Alternative h.AlternateHostRewrite (!h.AlternateHostRewrite)
      (steps (forwardToAlternate h a env) fault) := by
  obtain ⟨rest, hb, -⟩ := forwardToAlternate_quiet h a env
  have h1 := forwardToAlternate_body_hostSafe h a env
  have h2 := forwardToAlternate_defers h a env
  rw [hb] at h1 h2 ⊢
  rw [steps_recovered _ (fun _ => rfl)]
  refine runBody_hostSafe a h.Alternative h.AlternateHostRewrite rest _ fault _ h1
    (fun d hd => h2 d (List.mem_cons_of_mem _ hd)) ?_
  intro d hd
  exact h2 d (by simp only [List.nil_append, List.mem_singleton] at hd; rw [hd]; simp)

/-- A goroutine running a host-safe sequence of steps alone writes the request
at `p` to `addr` only, and with the host `addr` if the rewrite flag is set, the
host the request had at the start otherwise. -/
theorem run_hostSafe (t : Task) (p : Nat) (addr : String) (rewrite : Bool) (host0 : String) :
    ∀ (L : List Step) (ready : Bool) (W : World) (r : Request),
      hostSafe p addr rewrite ready L → W.reqs[p]? = some r →
      (rewrite = false → r.Host = host0) → (ready = true → rewrite = true → r.Host = addr) →
      (∀ x ∈ W.wire, x.1 = t ∧ x.2.1 = addr ∧
        x.2.2.Host = if rewrite = true then addr else host0) →
      ∀ x ∈ (run (L.map (Prod.mk t)) W).wire, x.1 = t ∧ x.2.1 = addr ∧
        x.2.2.Host = if rewrite = true then addr else host0 := by
  intro L
  induction L with
  | nil => intro ready W r _ _ _ _ hW; simpa [run] using hW
  | cons s L ih =>
    intro ready W r hsafe hr h0 h1 hW
    obtain ⟨hok, hrest⟩ := hsafe
    simp only [List.map_cons, run, List.foldl_cons]
    cases s
    case SetHost q host =>
      obtain ⟨rfl, rfl, hrw⟩ := hok
      refine ih true (exec (t, .SetHost q host) W) { r with Host := host } hrest ?_ ?_ ?_ ?_
      · simp [exec, effect, hr, getElem?_set_self_of_some _ _ _ _ hr]
      · intro hf; rw [hrw] at hf; cases hf
      · intro _ _; rfl
      · simpa [exec, effect, hr] using hW
    case ConnWrite a q =>
      obtain ⟨rfl, rfl, hready⟩ := hok
      have hf := readBody_frame W r.Body
      refine ih ready (exec (t, .ConnWrite a q) W) r hrest ?_ h0 h1 ?_
      · simp [exec, effect, hr, World.ReadAll, hf.1]
      · intro x hx
        simp only [exec, effect, hr, World.ReadAll, hf.2.2.2.2.1, List.mem_append,
          List.mem_singleton] at hx
        rcases hx with hx | rfl
        · exact hW x hx
        · refine ⟨rfl, rfl, ?_⟩
          cases hrw : rewrite
          · simp [World.wireRequest, h0 hrw]
          · simp [World.wireRequest, h1 hready hrw]
    all_goals
      exact ih ready _ r hrest (by simpa [exec, effect] using hr) h0 h1
        (by simpa [exec, effect] using hW)

/-- Every request the serving goroutine writes goes to `Target` with Host
`Target` if `ProductionHostRewrite` is set and the inbound Host otherwise; every
request the started goroutine writes goes to `Alternative` with Host
`Alternative` if `AlternateHostRewrite` is set and the inbound Host otherwise. -/
theorem ServeHTTP_written (h : Handler) (i : Inbound) (rng : Rand) (pri alt : Backend)
    (sched : List Bool) :
    (∀ x ∈ (ServeHTTP h 0 pri alt sched (World.init i rng)).written .primary,
      x.1 = h.Target ∧
      x.2.Host = if h.ProductionHostRewrite = true then h.Target else i.Host) ∧
    (∀ x ∈ (ServeHTTP h 0 pri alt sched (World.init i rng)).written .shadow,
      x.1 = h.Alternative ∧
      x.2.Host = if h.AlternateHostRewrite = true then h.Alternative else i.Host) := by
  have hready : ∀ b : Bool, (!b) = true → b = true → i.request.Host = h.Target := by
    intro b h1 h2; rw [h2] at h1; cases h1
  have hready' : ∀ b : Bool, (!b) = true → b = true → i.request.Host = h.Alternative := by
    intro b h1 h2; rw [h2] at h1; cases h1
  constructor
  · rw [(observables_project _ _ (ServeHTTP_observables h i rng pri alt sched)).2.2.2.2.2.1]
    intro x hx
    simp only [World.written, List.mem_map, List.mem_filter] at hx
    obtain ⟨e, ⟨he, _⟩, rfl⟩ := hx
    unfold primaryAlone at he
    split_ifs at he
    · exact (run_hostSafe Task.primary 2 h.Target h.ProductionHostRewrite i.Host _ _
        (World.dispatched i rng) { i.request with Body := .nopCloser 0, Close := true }
        (forwardToPrimary_hostSafe h 2 pri pri.fault) rfl (fun _ => rfl)
        (hready _) (by simp [World.dispatched]) e he).2
    · exact (run_hostSafe Task.primary 0 h.Target h.ProductionHostRewrite i.Host _ _
        (World.sampled i rng) i.request
        (forwardToPrimary_hostSafe h 0 pri pri.fault) rfl (fun _ => rfl)
        (hready _) (by simp [World.sampled]) e he).2
  · intro x hx
    simp only [World.written, List.mem_map, List.mem_filter, decide_eq_true_eq] at hx
    obtain ⟨e, ⟨he, het⟩, rfl⟩ := hx
    by_cases hm : h.Percent = 100 ∨ rng.Float64.1 * 100 < h.Percent
    · rw [ServeHTTP_mirrored h i rng pri alt sched hm] at he
      have hv := interleaved_shadowView h pri alt sched 2 0 1 1 (by decide) (by decide)
        (World.dispatched i rng) (dispatched_holds i rng).1 (dispatched_holds i rng).2
      simp only [World.shadowView, Prod.mk.injEq] at hv
      have he' : e ∈ (run ((steps (forwardToAlternate h 1 alt) alt.fault).map
          (Prod.mk Task.shadow)) (World.dispatched i rng)).wire := by
        have : e ∈ List.filter (fun e => decide (e.1 = Task.shadow))
            (run (interleave sched (steps (forwardToPrimary h 2 pri) pri.fault)
              (steps (forwardToAlternate h 1 alt) alt.fault)) (World.dispatched i rng)).wire :=
          List.mem_filter.2 ⟨he, by simp [het]⟩
        rw [hv.2.1] at this
        exact (List.mem_filter.1 this).1
      exact (run_hostSafe Task.shadow 1 h.Alternative h.AlternateHostRewrite i.Host _ _
        (World.dispatched i rng) { i.request with Body := .nopCloser 1, Close := true }
        (forwardToAlternate_hostSafe h 1 alt alt.fault) rfl (fun _ => rfl)
        (hready' _) (by simp [World.dispatched]) e he').2
    · rw [ServeHTTP_unmirrored h i rng pri alt sched hm] at he
      have := (run_hostSafe Task.primary 0 h.Target h.ProductionHostRewrite i.Host _ _
        (World.sampled i rng) i.request
        (forwardToPrimary_hostSafe h 0 pri pri.fault) rfl (fun _ => rfl)
        (hready _) (by simp [World.sampled]) e he).1
      rw [het] at this
      cases this

/-- A host that is the address under the flag and the inbound host otherwise
is the address exactly when the flag is set or the inbound host is the
address. -/
theorem host_eq_addr_iff (flag : Bool) (host addr inbound : String)
    (hh : host = if flag = true then addr else inbound) :
    host = addr ↔ (flag = true ∨ inbound = addr) := by
  cases flag <;> simp [hh]

/-- C6, as the code behaves. For every request, configuration, behaviour of the
two backends and schedule, every request written to the primary backend goes to
`Target`; its Host is `Target` if `ProductionHostRewrite` is set and the inbound
Host otherwise, so it equals `Target` if and only if the flag is set or the
inbound Host already is `Target`. The same holds for the requests written by
the started goroutine, with `Alternative` and `AlternateHostRewrite`. Each Host
depends on its own flag and address only. -/
theorem ServeHTTP_written_hosts (h : Handler) (i : Inbound) (rng : Rand) (pri alt : Backend)
    (sched : List Bool) :
    (∀ x ∈ (ServeHTTP h 0 pri alt sched (World.init i rng)).written .primary,
      x.1 = h.Target ∧
      x.2.Host = (if h.ProductionHostRewrite = true then h.Target else i.Host) ∧
      (x.2.Host = h.Target ↔ (h.ProductionHostRewrite = true ∨ i.Host = h.Target))) ∧
    (∀ x ∈ (ServeHTTP h 0 pri alt sched (World.init i rng)).written .shadow,
      x.1 = h.Alternative ∧
      x.2.Host = (if h.AlternateHostRewrite = true then h.Alternative else i.Host) ∧
      (x.2.Host = h.Alternative ↔ (h.AlternateHostRewrite = true ∨ i.Host = h.Alternative))) := by
  have hw := ServeHTTP_written h i rng pri alt sched
  exact ⟨fun x hx => ⟨(hw.1 x hx).1, (hw.1 x hx).2, host_eq_addr_iff _ _ _ _ (hw.1 x hx).2⟩,
    fun x hx => ⟨(hw.2 x hx).1, (hw.2 x hx).2, host_eq_addr_iff _ _ _ _ (hw.2 x hx).2⟩⟩

/-- C6, counterexample. A request whose inbound Host is the address of the
primary backend, with `ProductionHostRewrite` off: the request written to the
primary has Host equal to `Target` although the flag is not set. -/
theorem ServeHTTP_host_is_target_without_rewrite :
    exampleHandler.ProductionHostRewrite = false ∧
    ((ServeHTTP exampleHandler 0 examplePrimary exampleAlternate [true, false]
        (World.init exampleInboundDirect exampleRand)).written .primary).map
      (fun x => (x.1, x.2.Host)) = [("localhost:8080", "localhost:8080")] ∧
    ¬ (∀ x ∈ (ServeHTTP exampleHandler 0 examplePrimary exampleAlternate [true, false]
        (World.init exampleInboundDirect exampleRand)).written .primary,
      (x.2.Host = exampleHandler.Target ↔ exampleHandler.ProductionHostRewrite = true)) := by
  decide

/-! ## The requests written when the backends are dialed -/

theorem run_append (A B : List (Task × Step)) (w : World) :
    run (A ++ B) w = run B (run A w) := by
  simp [run, List.foldl_append]

/-- When the primary backend is dialed and no panic is raised, the forward to
the primary writes the request once, after the host rewrite if any. -/
theorem forwardToPrimary_steps_dialed (h : Handler) (p : Nat) (pri : Backend)
    (hd : pri.dial = none) :
    ∃ R, steps (forwardToPrimary h p pri) none =
        [ .Log .info "Forwarding request to primary. Host: %s, URL: %s",
          .NewTiming .HttpStatsPri,
          .DialTimeout h.Target h.ProductionTimeout ] ++
        (if h.ProductionHostRewrite = true then [.SetHost p h.Target] else []) ++
        [ .ConnWrite h.Target p ] ++ R ∧
      ∀ s ∈ R, ∀ a q, s ≠ Step.ConnWrite a q := by
  rcases pri with ⟨dial, write, readErr, resp, fault⟩
  simp only at hd
  subst hd
  obtain ⟨rest, hsplit, hst, hdf⟩ : ∃ rest,
      forwardToPrimary h p ⟨none, write, readErr, resp, fault⟩ =
        [ .defer (recoverServeHTTP h),
          .step (.Log .info "Forwarding request to primary. Host: %s, URL: %s"),
          .step (.NewTiming .HttpStatsPri),
          .step (.DialTimeout h.Target h.ProductionTimeout) ] ++
        ([ .defer (fun r => ([.ConnClose h.Target], r)) ] ++
          (if h.ProductionHostRewrite = true then [.step (.SetHost p h.Target)] else []) ++
          [ .step (.ConnWrite h.Target p) ] ++ rest) ∧
      (∀ s, Instr.step s ∈ rest → ∀ a q, s ≠ Step.ConnWrite a q) ∧
      (∀ d, Instr.defer d ∈ rest → ∀ r, ∀ s ∈ (d r).1, ∀ a q, s ≠ Step.ConnWrite a q) := by
    refine ⟨_, rfl, ?_, ?_⟩
    · by_cases hc : readErr ≠ none ∧ readErr ≠ some ConnErr.ErrPersistEOF <;>
        cases write <;> simp [hc]
      rintro s (⟨k, v, -, rfl⟩ | rfl | rfl | rfl | rfl | rfl) a q <;> simp
    · by_cases hc : readErr ≠ none ∧ readErr ≠ some ConnErr.ErrPersistEOF <;>
        cases write <;> simp [hc]
  refine ⟨(runBody rest none [fun r => ([.ConnClose h.Target], r), recoverServeHTTP h]).1,
    ?_, ?_⟩
  · have h2 : (runBody rest none
        [fun r => ([Step.ConnClose h.Target], r), recoverServeHTTP h]).2 = none :=
      runBody_recovered (recoverServeHTTP h) (fun _ => rfl) rest none
        [fun r => ([Step.ConnClose h.Target], r)]
    rw [steps, hsplit]
    cases hR : h.ProductionHostRewrite <;> simp [runBody, Step.panics, h2]
  · refine runBody_all (fun s => ∀ a q, s ≠ Step.ConnWrite a q) rest none _ hst hdf ?_
    intro d hd r s hs
    simp only [List.mem_cons, List.mem_singleton, List.not_mem_nil, or_false] at hd
    rcases hd with rfl | rfl
    · simp only [List.mem_singleton] at hs
      subst hs
      intro a q
      simp
    · simp only [recoverServeHTTP] at hs
      split_ifs at hs <;> simp at hs
      subst hs
      intro a q
      simp

set_option maxHeartbeats 2000000 in
/-- When the alternate backend is dialed and no panic is raised,
`forwardToAlternate` writes the request once, after the host rewrite if any. -/
theorem forwardToAlternate_steps_dialed (h : Handler) (p : Nat) (alt : Backend)
    (hd : alt.dial = none) :
    ∃ R, steps (forwardToAlternate h p alt) none =
        [ .Log .info "Forwarding request to alternate. Host: %s, URL: %s",
          .NewTiming .HttpStatsAlt,
          .DialTimeout h.Alternative h.AlternateTimeout ] ++
        (if h.AlternateHostRewrite = true then [.SetHost p h.Alternative] else []) ++
        [ .ConnWrite h.Alternative p ] ++ R ∧
      ∀ s ∈ R, ∀ a q, s ≠ Step.ConnWrite a q := by
  rcases alt with ⟨dial, write, readErr, resp, fault⟩
  simp only at hd
  subst hd
  by_cases hc : readErr ≠ none ∧ readErr ≠ some ConnErr.ErrPersistEOF <;>
    cases write <;> cases hR : h.AlternateHostRewrite <;> cases hD : h.Debug <;>
    simp [steps, runBody, Step.panics, forwardToAlternate, hc, hR, hD, unwind,
      recoverAlternate]

/-- The serving goroutine alone, when the primary backend is dialed and no panic
is raised: it writes to `Target`, once, the inbound request with its whole body
and its headers; the Host is `Target` if `ProductionHostRewrite` is set and the
inbound Host otherwise. -/
theorem primaryAlone_written (h : Handler) (i : Inbound) (rng : Rand) (pri : Backend)
    (hd : pri.dial = none) (hf : pri.fault = none) :
    (primaryAlone h i rng pri).written .primary =
      [(h.Target,
        { Method := i.Method, URL := i.URL, Proto := i.Proto,
          Host := if h.ProductionHostRewrite = true then h.Target else i.Host,
          Header := i.Header, Body := i.Body.chunks.flatten,
          ContentLength := i.ContentLength,
          Close := if h.Percent = 100 ∨ rng.Float64.1 * 100 < h.Percent then true
                   else i.Close })] := by
  by_cases hm : h.Percent = 100 ∨ rng.Float64.1 * 100 < h.Percent
  · obtain ⟨R, hR, hRw⟩ := forwardToPrimary_steps_dialed h 2 pri hd
    rw [primaryAlone, if_pos hm, if_pos hm, hf, hR, List.map_append, run_append, World.written,
      run_wire _ _]
    · cases hF : h.ProductionHostRewrite <;>
        simp [run, exec, effect, World.dispatched, World.ReadAll, World.readBody,
          World.wireRequest, Inbound.request, Buffer.unread]
    · intro e he a q
      obtain ⟨s, hs, rfl⟩ := List.mem_map.1 he
      exact hRw s hs a q
  · obtain ⟨R, hR, hRw⟩ := forwardToPrimary_steps_dialed h 0 pri hd
    rw [primaryAlone, if_neg hm, if_neg hm, hf, hR, List.map_append, run_append, World.written,
      run_wire _ _]
    · cases hF : h.ProductionHostRewrite <;>
        simp [run, exec, effect, World.sampled, World.ReadAll, World.readBody,
          World.wireRequest, Inbound.request]
    · intro e he a q
      obtain ⟨s, hs, rfl⟩ := List.mem_map.1 he
      exact hRw s hs a q

/-- When the primary backend is dialed and no panic is raised in the serving
goroutine, then, whatever the alternate backend does and however the goroutines
are scheduled, exactly one request is written to `Target`: the inbound request
with its whole body and its headers, Host `Target` if `ProductionHostRewrite` is
set and the inbound Host otherwise. -/
theorem ServeHTTP_writes_primary (h : Handler) (i : Inbound) (rng : Rand) (pri alt : Backend)
    (sched : List Bool) (hd : pri.dial = none) (hf : pri.fault = none) :
    (ServeHTTP h 0 pri alt sched (World.init i rng)).written .primary =
      [(h.Target,
        { Method := i.Method, URL := i.URL, Proto := i.Proto,
          Host := if h.ProductionHostRewrite = true then h.Target else i.Host,
          Header := i.Header, Body := i.Body.chunks.flatten,
          ContentLength := i.ContentLength,
          Close := if h.Percent = 100 ∨ rng.Float64.1 * 100 < h.Percent then true
                   else i.Close })] := by
  rw [(observables_project _ _ (ServeHTTP_observables h i rng pri alt sched)).2.2.2.2.2.1]
  exact primaryAlone_written h i rng pri hd hf

/-- When the request is mirrored, the alternate backend is dialed and no panic
is raised in the started goroutine, then, whatever the primary backend does and
however the goroutines are scheduled, exactly one request is written to
`Alternative`: the inbound request with its whole body and its headers, Host
`Alternative` if `AlternateHostRewrite` is set and the inbound Host
otherwise. -/
theorem ServeHTTP_writes_alternate (h : Handler) (i : Inbound) (rng : Rand)
    (pri alt : Backend) (sched : List Bool)
    (hm : h.Percent = 100 ∨ rng.Float64.1 * 100 < h.Percent)
    (hd : alt.dial = none) (hf : alt.fault = none) :
    (ServeHTTP h 0 pri alt sched (World.init i rng)).written .shadow =
      [(h.Alternative,
        { Method := i.Method, URL := i.URL, Proto := i.Proto,
          Host := if h.AlternateHostRewrite = true then h.Alternative else i.Host,
          Header := i.Header, Body := i.Body.chunks.flatten,
          ContentLength := i.ContentLength, Close := true })] := by
  rw [ServeHTTP_mirrored h i rng pri alt sched hm]
  have hv := interleaved_shadowView h pri alt sched 2 0 1 1 (by decide) (by decide)
    (World.dispatched i rng) (dispatched_holds i rng).1 (dispatched_holds i rng).2
  simp only [World.shadowView, Prod.mk.injEq] at hv
  obtain ⟨R, hR, hRw⟩ := forwardToAlternate_steps_dialed h 1 alt hd
  rw [World.written, hv.2.1, hf, hR, List.map_append, run_append, run_wire _ _]
  · cases hF : h.AlternateHostRewrite <;>
      simp [run, exec, effect, World.dispatched, World.ReadAll, World.readBody,
        World.wireRequest, Inbound.request, Buffer.unread]
  · intro e he a q
    obtain ⟨s, hs, rfl⟩ := List.mem_map.1 he
    exact hRw s hs a q

end Teeproxy
